import Mathlib

/-!
# Verification of the ISL interpreter core

A shallow embedding, in Lean 4, of the ISL ("[Infinity] Interpreted Sequence
Language") interpreter (`src/core/interpreter.js`, class `ISLInterpreter`),
together with proofs about its tokenizer, symbol store, statement dispatcher,
control flow and error handling.

Modelling conventions:
* JavaScript numbers are modelled as exact rationals (`ℚ`); IEEE-754 rounding
  of float64 is idealised away (no claim here depends on rounding).
* JavaScript objects used as string-keyed tables are modelled as association
  lists with update-in-place-or-append semantics (`updateAssoc`).
* `undefined` type tags are modelled as `Option String` (`none` = undefined).
* Thrown exceptions are modelled with `Except`; because assignments performed
  before a `throw` persist in JavaScript, failing operations return the state
  as mutated up to the point of the throw (`Except (InterpState × ISLError) _`).
* Host-environment interaction (DOM events, timers, `prompt`, `eval`-style
  import/export) is modelled by oracle fields in the state and by an effect
  log; the scheduling timer itself is external, so one `setInterval` callback
  is modelled as the function `startExecutionTick`.
* Invocation of keyword callbacks is instrumented by a ghost `invoked` trace
  recording which callback (built-in or extension-provided) ran; extension
  callbacks are arbitrary host code and are modelled as opaque effects that
  only append to this trace.
-/

namespace ISL

/-- Classification of a thrown error, mirroring the `type` argument of
`ISLError` in the source (`ReferenceError`, `TypeError`, `SyntaxError`,
`EnvironmentError`) plus `internalErr` for host-level JavaScript exceptions
(`TypeError`s from undefined accesses and the like, reported as "Internal"). -/
inductive ErrKind where
  | reference
  | typeErr
  | synErr
  | environment
  | internalErr
deriving DecidableEq, Repr

/-- `ISLError` from the source: a message plus an error classification. -/
structure ISLError where
  message : String
  kind : ErrKind
deriving DecidableEq, Repr

/-- The raw payload of a value flowing through the interpreter: a JS number
(modelled as `ℚ`), a string, a boolean, a group (an `ISLGroup` of components,
each a value paired with its optional type tag) or `null`. -/
inductive Raw where
  | num (q : ℚ)
  | str (s : String)
  | bool (b : Bool)
  | group (elems : List (Raw × Option String))
  | null
deriving Repr

/-- A tokenized component `{value, type}`; `type = none` models an
`undefined` type tag (possible for values fetched from untyped variables). -/
structure Component where
  value : Raw
  type : Option String
deriving Repr

/-- JS strict equality `===` between a raw value and a string (used for
`Array.includes` checks on keywords and labels): only a string can be `===`
to a string. -/
def rawEqString (r : Raw) (s : String) : Bool :=
  match r with
  | .str v => v = s
  | _ => false

/-- JS property-key coercion `String(value)` used when a raw value indexes an
object (`this.#localVariables[name]` and the keyword tables).  In every
execution path relevant to the claims the value is already a string; the
renderings of the remaining variants approximate JS `toString` (number
formatting of non-integral numbers and group rendering are not modelled
bit-for-bit). -/
def rawKeyString (r : Raw) : String :=
  match r with
  | .str s => s
  | .bool true => "true"
  | .bool false => "false"
  | .num q => if q.den = 1 then toString q.num else toString q
  | .group _ => "[group]"
  | .null => "null"

/-- Association-list lookup, JS `obj[key]` (`undefined` ↦ `none`). -/
def lookupAssoc {α : Type} (l : List (String × α)) (k : String) : Option α :=
  match l with
  | [] => none
  | (k', v) :: rest => if k' = k then some v else lookupAssoc rest k

/-- Association-list update, JS `obj[key] = v`: replaces the existing binding
in place, or appends a new one. -/
def updateAssoc {α : Type} (l : List (String × α)) (k : String) (v : α) :
    List (String × α) :=
  match l with
  | [] => [(k, v)]
  | (k', v') :: rest =>
      if k' = k then (k', v) :: rest else (k', v') :: updateAssoc rest k v

/-- ASCII digit test, the `[0-9]` character class. -/
def isDigitChar (c : Char) : Bool := '0' ≤ c && c ≤ '9'

/-- `String.split` on a single-character separator, with JS semantics
(`"".split(c) = [""]`, empty fields preserved). -/
def splitChar (c : Char) : List Char → List (List Char)
  | [] => [[]]
  | a :: rest =>
      match splitChar c rest with
      | [] => [[]]
      | h :: t => if a = c then [] :: h :: t else (a :: h) :: t

/-- `s.split(c)` for a one-character separator string. -/
def strSplitChar (s : String) (c : Char) : List String :=
  (splitChar c s.data).map fun l => ⟨l⟩

/-- `s.substring(n)`. -/
def strDrop (s : String) (n : ℕ) : String := ⟨s.data.drop n⟩

/-- Removal of the final character, `s.substring(0, s.length - 1)`. -/
def strDropLast (s : String) : String := ⟨s.data.dropLast⟩

/-- The characters `String.prototype.trim` removes (ASCII subset). -/
def isJsSpace (c : Char) : Bool :=
  c = ' ' || c = '\t' || c = '\n' || c = '\r' ||
  c = Char.ofNat 11 || c = Char.ofNat 12

/-- `s.trim()`. -/
def strTrim (s : String) : String :=
  ⟨((s.data.dropWhile isJsSpace).reverse.dropWhile isJsSpace).reverse⟩

/-- Everything before the first `//`, the comment cut. -/
def cutAtComment : List Char → List Char
  | [] => []
  | '/' :: '/' :: _ => []
  | a :: rest => a :: cutAtComment rest

/-- Digit-list accumulation as performed by `parseFloat`/`parseInt` on a run
of decimal digits (Horner evaluation). -/
def natOfDigits (cs : List Char) : ℕ :=
  cs.foldl (fun a c => 10 * a + (c.toNat - 48)) 0

/-- The body of the numeric-literal regex after an optional sign:
`[0-9]+(\.[0-9]+)?`. -/
def isNumericBody (cs : List Char) : Bool :=
  let intPart := cs.takeWhile isDigitChar
  let rest := cs.dropWhile isDigitChar
  intPart ≠ [] &&
    (rest = [] ||
      (rest.head? = some '.' && rest.tail ≠ [] && rest.tail.all isDigitChar))

/-- The numeric-literal test `/^-?[0-9]+(?:\.[0-9]+)?$/` from
`#restoreOriginalType`. -/
def isNumericLiteral (s : String) : Bool :=
  if s.data.head? = some '-' then isNumericBody s.data.tail
  else isNumericBody s.data

/-- The relative-position test `/^~-?[0-9]+(?:\.[0-9]+)?$/` from
`#restoreOriginalType`. -/
def isRelposLiteral (s : String) : Bool :=
  if s.data.head? = some '~' then
    (if s.data.tail.head? = some '-' then isNumericBody s.data.tail.tail
     else isNumericBody s.data.tail)
  else false

/-- `parseFloat` on an unsigned decimal literal `digits(.digits)?`
(exact-rational idealisation of float64). -/
def parseBody (cs : List Char) : ℚ :=
  let intPart := cs.takeWhile isDigitChar
  let rest := cs.dropWhile isDigitChar
  match rest with
  | '.' :: frac => (natOfDigits intPart : ℚ) + (natOfDigits frac : ℚ) / 10 ^ frac.length
  | _ => (natOfDigits intPart : ℚ)

/-- `parseFloat` applied to a string matching the numeric-literal pattern. -/
def parseNumber (s : String) : ℚ :=
  if s.data.head? = some '-' then -(parseBody s.data.tail)
  else parseBody s.data

/-- JS `parseInt` on a string: optional sign followed by the longest leading
digit run (parsing stops at the first non-digit, e.g. at a `.`).  A string
with no leading digits gives `NaN` in JS; that case is unreachable from
`#goToLine`'s call sites (the argument always matches the relative-position
pattern) and is mapped to `0` here. -/
def jsParseIntStr (s : String) : ℤ :=
  if s.data.head? = some '-' then
    -(natOfDigits (s.data.tail.takeWhile isDigitChar) : ℤ)
  else (natOfDigits (s.data.takeWhile isDigitChar) : ℤ)

/-- JS truncation toward zero, the effect of `parseInt(String(q))` on a
number (exponent-notation formatting of very large numbers not modelled). -/
def jsTruncQ (q : ℚ) : ℤ := if q < 0 then -⌊-q⌋ else ⌊q⌋

/-- `parseInt` applied to a raw value, as in `#goToLine`'s absolute branch. -/
def jsParseIntRaw (r : Raw) : ℤ :=
  match r with
  | .num q => jsTruncQ q
  | .str s => jsParseIntStr s
  | .bool _ => 0
  | .group _ => 0
  | .null => 0

/-- `#restoreOriginalType`: literal coercion of a component.  The source's
`if(thing.type === "group")` branch is unreachable (it sits below the
`thing.type !== "identifier"` early return) and is therefore absent. -/
def restoreOriginalType (c : Component) : Component :=
  if c.value matches Raw.null then
    -- `thing.value == null`: only the null/undefined raw matches
    if c.type ≠ some "identifier" then ⟨Raw.null, some "undefined"⟩ else c
  else if c.type ≠ some "identifier" then c
  else
    match c.value with
    | .str v =>
        if v = "true" then ⟨Raw.bool true, some "boolean"⟩
        else if v = "false" then ⟨Raw.bool false, some "boolean"⟩
        else if isNumericLiteral v then ⟨Raw.num (parseNumber v), some "number"⟩
        else if isRelposLiteral v then ⟨Raw.str v, some "relpos"⟩
        else c
    | _ => c

/-- A local variable entry `{value, type, declared}`; `type = none` models an
undefined type tag (no type established yet). -/
structure VarEntry where
  value : Raw
  type : Option String
  declared : Bool
deriving Repr

/-- One declared-function parameter `{name, type}`; the type is the part
after the `:` of the declaration and may be absent. -/
structure Param where
  name : String
  type : Option String
deriving Repr

/-- A function entry `{indexStart, indexEnd, params, declared, ended}`. -/
structure FuncEntry where
  indexStart : ℤ
  indexEnd : Option ℤ
  declared : Bool
  ended : Bool
  params : List Param
deriving Repr

/-- A call-stack frame `{calledFrom, func, params}` (the supplied argument
components travel with the frame). -/
structure Frame where
  calledFrom : ℤ
  func : String
  params : List Component
deriving Repr

/-- The parameter frame built by `#toParameterObjects`: name ↦ read-only
`{type, value}` records.  `#parameters` can also be the JS value `undefined`
(when `#toParameterObjects` is handed the empty function name), hence the
`Option` at the use sites. -/
abbrev ParamFrame := List (String × Component)

/-- Descriptor of one positional keyword argument; every field of the JS
object literal is optional. -/
structure Descriptor where
  type : Option String := none
  name : Option String := none
  optional : Bool := false
  recurring : Bool := false
deriving Repr

/-- An extension-provided keyword `{callback, descriptors}`.  The callback is
arbitrary host code and is identified by a ghost `callbackId`; running it is
modelled as recording that id in the invocation trace. -/
structure CustomKeywordDef where
  callbackId : ℕ
  descriptors : Option (List Descriptor) := none
deriving Repr

/-- An entry of the interpreter's `#customKeywords` table: the definition
plus the owning extension (`source`), recorded by `extend`. -/
structure CustomKeyword where
  callbackId : ℕ
  descriptors : Option (List Descriptor)
  source : String
deriving Repr

/-- An extension label `{label, for}`. -/
structure LabelDef where
  label : String
  applicableTo : List String
deriving Repr

/-- An extension instance as consumed by `extend`: identifier, keyword map,
global-variable map, label list and custom literal types (name plus
validator predicate). -/
structure ExtensionModel where
  id : String
  keywords : List (String × CustomKeywordDef) := []
  «variables» : List (String × Component) := []
  labels : List LabelDef := []
  types : List (String × (String → Bool)) := []

/-- Which keyword callback a dispatch invoked: a built-in (by keyword name)
or an extension callback (owning extension id and ghost callback id). -/
inductive CallbackRef where
  | builtin (keyword : String)
  | custom (extId : String) (callbackId : ℕ)
deriving DecidableEq, Repr

/-- The mutable state of one `ISLInterpreter` instance.  Fields mirror the
private fields of the class; `outputLog`, `warnings`, `errorReports`,
`hostEffects` capture what the instance hands to its log/warn/error
callbacks and to the host, and `invoked` is the ghost callback-invocation
trace.  `promptResponse` and `importValue` are oracles standing for the
host values returned by `prompt()` and by `#getVariableFromFullPath`
(the latter as its `{.value, .type}` projections). -/
structure InterpState where
  isl : List String := []
  loaded : Bool := false
  filename : String := "<direct execution>"
  realFilename : String := ""
  counter : ℤ := 0
  lastErrorLine : ℤ := 0
  stopped : Bool := false
  localVariables : List (String × VarEntry) := []
  globalVariables : List (String × Component) :=
    [("mleft", ⟨Raw.bool false, some "boolean"⟩),
     ("mright", ⟨Raw.bool false, some "boolean"⟩),
     ("mwheel", ⟨Raw.bool false, some "boolean"⟩),
     ("m4", ⟨Raw.bool false, some "boolean"⟩),
     ("m5", ⟨Raw.bool false, some "boolean"⟩),
     ("many", ⟨Raw.bool false, some "boolean"⟩)]
  functions : List (String × FuncEntry) := []
  parameters : Option ParamFrame := some []
  callstack : List Frame := []
  customKeywords : List (String × CustomKeyword) := []
  extensions : List ExtensionModel := []
  literalsExtra : List (String × (String → Bool)) := []
  currentLabels : List String := []
  ignored : List String := []
  waits : ℚ := 0
  skipping : Bool := false
  listeningForKeyPress : Bool := false
  listenerTarget : String := ""
  listenerManipulationType : String := "set"
  pressed : List String := []
  console : List Raw := []
  outputLog : List (List Raw) := []
  warnedFor : List String := []
  warnings : List String := []
  errorReports : List ISLError := []
  invoked : List CallbackRef := []
  hostEffects : List String := []
  environment : String := "js"
  executeSpeed : ℚ := 10
  instructionsAtOnce : ℕ := 1
  instant : Bool := false
  reportErrors : Bool := true
  silenced : Bool := false
  haltOnDisallowedOperation : Bool := false
  allowExport : Bool := false
  allowImport : Bool := false
  promptResponse : String := ""
  importValue : Component := ⟨Raw.null, none⟩

/-- A freshly constructed interpreter with default options (the constructor
sets `allowExport = allowImport = options.allowCommunicationDefault ?? false`,
overriding the field initialisers). -/
def initialState : InterpState := {}

/-- Result of a state-mutating operation: either the new state, or the state
as mutated up to the throw, together with the thrown error. -/
abbrev ExecResult := Except (InterpState × ISLError) InterpState

/-- `#pc` getter: the 1-based program counter `#counter + 1`. -/
def pc (st : InterpState) : ℤ := st.counter + 1

/-- `#pc` setter: `#counter = newPC - 1`. -/
def setPc (st : InterpState) (newPC : ℤ) : InterpState :=
  { st with counter := newPC - 1 }

/-- `#warn`: deliver a warning to the warning callback unless silenced. -/
def warn (st : InterpState) (msg : String) : InterpState :=
  if st.silenced then st else { st with warnings := st.warnings ++ [msg] }

/-- `#warnOnce`: warn, at most once per (warning id, line) pair. -/
def warnOnce (st : InterpState) (warnID : String) (msg : String) : InterpState :=
  let key := "." ++ warnID ++ "|" ++ toString (pc st)
  if key ∈ st.warnedFor then st
  else { warn st msg with warnedFor := st.warnedFor ++ [key] }

/-- `#doesVarExist`. -/
def doesVarExist (st : InterpState) (name : String) : Bool :=
  (lookupAssoc st.localVariables name).isSome

/-- `#doesFuncExist`. -/
def doesFuncExist (st : InterpState) (name : String) : Bool :=
  (lookupAssoc st.functions name).isSome

/-- `#getVarObj`: the variable entry, or a Reference-kind error. -/
def getVarObj (st : InterpState) (name : String) : Except ISLError VarEntry :=
  match lookupAssoc st.localVariables name with
  | some v => .ok v
  | none => .error ⟨"Variable '" ++ name ++ "' does not exist!", .reference⟩

/-- `#getGlobalVarObj` (name given without the leading underscore). -/
def getGlobalVarObj (st : InterpState) (name : String) :
    Except ISLError Component :=
  match lookupAssoc st.globalVariables name with
  | some v => .ok v
  | none =>
      .error ⟨"Global variable '" ++ name ++ "' does not exist!", .reference⟩

/-- `#getParameterObj`.  When `#parameters` is the JS value `undefined`
(after returning past the bottom of the call stack) the property access
itself raises a host-level `TypeError`. -/
def getParameterObj (st : InterpState) (name : String) :
    Except ISLError Component :=
  match st.parameters with
  | none =>
      .error ⟨"Cannot read properties of undefined (reading '" ++ name ++ "')",
        .internalErr⟩
  | some frame =>
      match lookupAssoc frame name with
      | some v => .ok v
      | none =>
          .error ⟨"Parameter '" ++ name ++ "' does not exist!", .reference⟩

/-- `#getFunction`. -/
def getFunction (st : InterpState) (name : String) :
    Except ISLError FuncEntry :=
  match lookupAssoc st.functions name with
  | some f => .ok f
  | none => .error ⟨"Function '" ++ name ++ "' does not exist!", .reference⟩

/-- `#reset` (soft reset): cursor to the start; every local variable and
function is marked not-declared-in-this-pass; values are retained. -/
def reset (st : InterpState) : InterpState :=
  { st with
    counter := 0
    localVariables := st.localVariables.map fun p => (p.1, { p.2 with declared := false })
    functions := st.functions.map fun p => (p.1, { p.2 with declared := false }) }

/-- `#hardReset`: cursor to the start; local variables, functions, call
stack, parameter frame and output console are cleared entirely. -/
def hardReset (st : InterpState) : InterpState :=
  { st with
    counter := 0
    localVariables := []
    functions := []
    callstack := []
    parameters := some []
    console := [] }

/-- `stopExecution`: halts and soft-resets (the `clearInterval` and console
timing calls are host-side). -/
def stopExecution (st : InterpState) : InterpState :=
  reset { st with stopped := true }

/-- `#stopExecutionDestructive`: halts and hard-resets. -/
def stopExecutionDestructive (st : InterpState) : InterpState :=
  hardReset { st with stopped := true }

/-- `#fullReset`: destructive stop plus clearing of waits, key listener and
accumulated meta state. -/
def fullReset (st : InterpState) : InterpState :=
  { stopExecutionDestructive st with
    counter := 0
    lastErrorLine := 0
    stopped := true
    listeningForKeyPress := false
    waits := 0
    ignored := [] }

/-- `#handleError`: record the failing line, stop execution, and (when error
reporting is enabled) deliver the error to the pluggable error callback.
The formatted report text (message, line, file, classification, stack) is
modelled by recording the structured error itself. -/
def handleError (st : InterpState) (e : ISLError) : InterpState :=
  let st := { st with lastErrorLine := pc st }
  let st := stopExecution st
  if st.reportErrors then { st with errorReports := st.errorReports ++ [e] }
  else st

/-- `#toParameterObjects`: validates argument count and per-parameter type
match and builds the read-only parameter frame.  Returns `none` (JS
`undefined`) for the empty function name.  (The `Object.defineProperty`
read-only flag is represented by the frame being rebuilt on every call;
duplicate parameter names, on which `defineProperty` would throw, are not
modelled.) -/
def toParameterObjects (st : InterpState) (func : String)
    (parameters : List Component) : Except ISLError (Option ParamFrame) :=
  if func = "" then .ok none
  else
    match getFunction st func with
    | .error e => .error e
    | .ok f =>
        let expectedParams := f.params
        if parameters.length ≠ expectedParams.length then
          .error ⟨"Function '" ++ func ++ "' requires " ++
            toString expectedParams.length ++ " parameter(s), but received " ++
            toString parameters.length, .synErr⟩
        else
          let rec build (eps : List Param) (ps : List Component)
              (acc : ParamFrame) : Except ISLError ParamFrame :=
            match eps, ps with
            | [], _ => .ok acc
            | _, [] => .ok acc
            | ep :: eps', p :: ps' =>
                if ep.type ≠ p.type then
                  .error ⟨"Parameter '" ++ ep.name ++ "' has type '" ++
                    toString ep.type ++ "', but was given an argument of type '" ++
                    toString p.type ++ "'", .typeErr⟩
                else build eps' ps' (updateAssoc acc ep.name ⟨p.value, p.type⟩)
          match build expectedParams parameters [] with
          | .error e => .error e
          | .ok frame => .ok (some frame)

/-- `#isl_declare`: declaration of a local variable (`"var"`) or function
(`"cmd"`).  Redeclaration while still marked declared in the current pass is
a Reference-kind error. -/
def isl_declare (st : InterpState) (declareType : String) (name : String)
    (initialValue : Raw) (type : Option String)
    (functionParameters : List Component) : ExecResult :=
  if declareType = "var" then
    let st :=
      if type = none then
        warnOnce st "var.notype"
          ("No type set for variable '" ++ name ++ "' (declared line " ++
            toString (pc st) ++ ")")
      else st
    match lookupAssoc st.localVariables name with
    | some v =>
        if v.declared then
          .error (st, ⟨"Cannot redeclare local variable '" ++ name ++ "'",
            .reference⟩)
        else
          .ok { st with localVariables :=
                  updateAssoc st.localVariables name ⟨initialValue, type, true⟩ }
    | none =>
        .ok { st with localVariables :=
                updateAssoc st.localVariables name ⟨initialValue, type, true⟩ }
  else if declareType = "cmd" then
    match lookupAssoc st.functions name with
    | some f =>
        if f.declared then
          .error (st, ⟨"Cannot redeclare function '" ++ name ++ "'",
            .reference⟩)
        else declareFunc st name functionParameters
    | none => declareFunc st name functionParameters
  else
    .error (st, ⟨"Unknown type: '" ++ declareType ++
      "', expected 'var' or 'cmd'", .synErr⟩)
where
  /-- The `"cmd"` else-branch: parse `name:type` parameter components, record
  the function with the current cursor as body start, and enter skipping
  mode.  A non-string parameter component would make `param.split` throw a
  host-level error. -/
  declareFunc (st : InterpState) (name : String)
      (functionParameters : List Component) : ExecResult :=
    let rec parseParams (comps : List Component) (acc : List Param) :
        Except ISLError (List Param) :=
      match comps with
      | [] => .ok acc
      | c :: rest =>
          match c.value with
          | .str s =>
              let opts := strSplitChar s ':'
              parseParams rest (acc ++ [⟨opts.headD "", opts[1]?⟩])
          | _ => .error ⟨"param.split is not a function", .internalErr⟩
    match parseParams functionParameters [] with
    | .error e => .error (st, e)
    | .ok params =>
        .ok { st with
          functions := updateAssoc st.functions name
            ⟨st.counter, none, true, false, params⟩
          skipping := true }

/-- `#isl_delete`. -/
def isl_delete (st : InterpState) (name : String) : ExecResult :=
  if ¬ doesVarExist st name then
    .error (st, ⟨"Cannot delete nonexistent variable '" ++ name ++ "'",
      .reference⟩)
  else
    .ok { st with
      localVariables := st.localVariables.filter fun p => p.1 ≠ name }

/-- `#isl_end`: record the body end; if the function was already `ended`,
return up the call stack (popping the most recent frame, restoring the
cursor, and rebuilding the parameter frame from the frame at *index 0* of
the remaining stack, exactly as the source does); otherwise finish the
declaration by flipping `ended`. -/
def isl_end (st : InterpState) (name : String) : ExecResult :=
  match lookupAssoc st.functions name with
  | none =>
      .error (st, ⟨"Function '" ++ name ++ "' does not exist!", .reference⟩)
  | some f =>
      let st := { st with functions :=
                    (updateAssoc st.functions name
                      { f with indexEnd := some st.counter }) }
      if f.ended then
        let previous := st.callstack.getLast?
        let remaining := st.callstack.dropLast
        let continuing := remaining.head?.getD ⟨0, "", []⟩
        let st := { st with
                    callstack := remaining
                    counter := (match previous with
                                | some fr => fr.calledFrom
                                | none => st.counter) }
        match toParameterObjects st continuing.func continuing.params with
        | .error e => .error (st, e)
        | .ok pf => .ok { st with parameters := pf }
      else
        .ok { st with functions :=
                (updateAssoc st.functions name
                  { f with indexEnd := some st.counter, ended := true }) }

/-- `#isl_execute`: function call.  Note the order of operations taken from
the source: the call-stack frame is pushed *first*, then
`#toParameterObjects` validates the arguments (so a count/type error leaves
the pushed frame on the stack), then the parameter frame is installed and
the cursor moved to the body start. -/
def isl_execute (st : InterpState) (func : String)
    (inParameters : List Component) : ExecResult :=
  if ¬ doesFuncExist st func then
    .error (st, ⟨"Function '" ++ func ++ "' does not exist!", .reference⟩)
  else
    let st := { st with
      callstack := st.callstack ++ [⟨st.counter, func, inParameters⟩] }
    match toParameterObjects st func inParameters with
    | .error e => .error (st, e)
    | .ok pf =>
        let st := { st with parameters := pf }
        match getFunction st func with
        | .error e => .error (st, e)
        | .ok f => .ok { st with counter := f.indexStart }

/-- `#isl_set`: assignment.  An entry whose type tag is still undefined
adopts the incoming component's tag; an established tag that differs from
the incoming tag is a Type-kind error thrown before the value is written. -/
def isl_set (st : InterpState) («variable» : String) (value : Component) :
    ExecResult :=
  match lookupAssoc st.localVariables «variable» with
  | none =>
      .error (st, ⟨"Variable '" ++ «variable» ++ "' does not exist!",
        .reference⟩)
  | some v =>
      let v1 := if v.type = none then { v with type := value.type } else v
      if v1.type ≠ value.type then
        .error (st, ⟨"Cannot set a variable with type '" ++ toString v1.type ++
          "' to a value of type '" ++ toString value.type ++ "'", .typeErr⟩)
      else
        .ok { st with localVariables :=
                (updateAssoc st.localVariables «variable»
                  { v1 with value := value.value }) }

/-- JS numeric coercion of a raw value as used by the arithmetic keywords
(`-`, `*`, `/`, `**` coerce their operand with `ToNumber`); a non-numeric
string gives `NaN` in JS, which is approximated by `0` here (no claim
depends on it). -/
def asNumeric (r : Raw) : ℚ :=
  match r with
  | .num q => q
  | .bool true => 1
  | .bool false => 0
  | .null => 0
  | .str s => if isNumericLiteral s then parseNumber s else 0
  | .group _ => 0

/-- JS `+` between the stored raw value and the incoming raw value as used
by `#isl_add` (string concatenation uses the approximate `rawKeyString`
rendering). -/
def jsAdd (a b : Raw) : Raw :=
  match a, b with
  | .num q, .num r => .num (q + r)
  | .num q, .str s => .str (rawKeyString (.num q) ++ s)
  | .str s, b => .str (s ++ rawKeyString b)
  | a, b => .num (asNumeric a + asNumeric b)

/-- `#isl_add`. -/
def isl_add (st : InterpState) («variable» : String) (value : Component) :
    ExecResult :=
  match lookupAssoc st.localVariables «variable» with
  | none =>
      .error (st, ⟨"Variable '" ++ «variable» ++ "' does not exist!",
        .reference⟩)
  | some v =>
      if v.type ≠ some "number" ∧ v.type ≠ some "string" then
        .error (st, ⟨"Cannot add to a variable with type '" ++
          toString v.type ++ "'", .typeErr⟩)
      else
        .ok { st with localVariables :=
                (updateAssoc st.localVariables «variable»
                  { v with value := jsAdd v.value value.value }) }

/-- The shared shape of `#isl_sub`/`#isl_mult`/`#isl_div`/`#isl_exp`/
`#isl_root`: requires an established `number` tag, applies the binary
operation, and (re)writes the tag to `number`. -/
def numericBinOp (st : InterpState) («variable» : String) (value : Component)
    (verb : String) (op : ℚ → ℚ → ℚ) : ExecResult :=
  match lookupAssoc st.localVariables «variable» with
  | none =>
      .error (st, ⟨"Variable '" ++ «variable» ++ "' does not exist!",
        .reference⟩)
  | some v =>
      if v.type ≠ some "number" then
        .error (st, ⟨"Cannot " ++ verb ++ " a variable with type '" ++
          toString v.type ++ "'", .typeErr⟩)
      else
        .ok { st with localVariables :=
                (updateAssoc st.localVariables «variable»
                  ⟨.num (op (asNumeric v.value) (asNumeric value.value)),
                    some "number", v.declared⟩) }

/-- Rational exponentiation for `**` restricted to integer exponents
(non-integer exponents produce irrational results in JS; approximated by
the integer-exponent power, the only case exercised here). -/
def qPow (base expo : ℚ) : ℚ :=
  if expo ≥ 0 then base ^ expo.num.toNat
  else (base ^ (-expo.num).toNat)⁻¹

/-- `#goToLine`: a `relpos` component `~N` adds `parseInt(N) - 1` to the
1-based `#pc`; anything else sets `#pc` to `parseInt(value) - 1`.  (A
`relpos`-typed component always carries its original `~N` string; the
fallback arm for other raws approximates the host behaviour.) -/
def goToLine (st : InterpState) (line : Component) : InterpState :=
  if line.type = some "relpos" then
    let n := match line.value with
             | .str s => jsParseIntStr (strDrop s 1)
             | r => jsParseIntRaw r
    setPc st (pc st + n - 1)
  else
    setPc st (jsParseIntRaw line.value - 1)

/-- The names of the `#defaultKeywords` table, in source order. -/
def defaultKeywordNames : List String :=
  ["var", "number", "string", "function", "delete", "end", "execute", "set",
   "add", "subtract", "multiply", "divide", "round", "exponent", "root",
   "negate", "log", "flush", "popup-input", "awaitkey", "getkeys", "restart",
   "rundelay", "stop", "pause", "if", "jump", "export", "import"]

/-- The `#literals` table: the built-in `comparator` and `keyword`
literal-class predicates followed by every extension-registered type
validator, in registration order. -/
def literalsTable (st : InterpState) : List (String × (String → Bool)) :=
  [("comparator", fun v => ["=", "!=", "<", ">", "in"].contains v),
   ("keyword", fun v =>
      defaultKeywordNames.contains v || (lookupAssoc st.customKeywords v).isSome)]
  ++ st.literalsExtra

/-- The literal-class upgrade loop of `addComponent`: every predicate is
tried in table order and each match overwrites the type tag (the last match
wins). -/
def applyLiterals (st : InterpState) (v : String) (t0 : String) : String :=
  (literalsTable st).foldl (fun t p => if p.2 v then p.1 else t) t0

/-- The scanner state of `#parseLine`: the four region flags, the text
buffer of the component under construction, its current type, and the
components accumulated so far. -/
structure ScanState where
  inQuotes : Bool := false
  inBrackets : Bool := false
  inBackslashes : Bool := false
  current : String := ""
  currentType : String := "identifier"
  comps : List Component := []
deriving Repr

/-- `isComponent` from `#parseLine`: a buffer is worth emitting if it is
non-empty or a type other than `identifier` has been established. -/
def isComponent (sc : ScanState) : Bool :=
  sc.current.length > 0 || sc.currentType ≠ "identifier"

/-- `addComponent(currentComponent)` (the `setType = false` mode): runs
literal coercion and then the literal-class upgrade on the buffered text,
pushes the result unless its value is `null`, and resets the buffer and
current type. -/
def addComponentStr (st : InterpState) (sc : ScanState) : ScanState :=
  if ¬ isComponent sc then sc
  else
    let obj := restoreOriginalType ⟨.str sc.current, some sc.currentType⟩
    let obj :=
      if obj.type = some "identifier" then
        { obj with type := some (applyLiterals st sc.current "identifier") }
      else obj
    let comps :=
      if obj.value matches Raw.null then sc.comps else sc.comps ++ [obj]
    { sc with comps := comps, current := "", currentType := "identifier" }

/-- `addComponent(content, type, true)` (the `setType = true` mode): pushes
the given value verbatim (unless `null`) and resets the buffer. -/
def addComponentSet (sc : ScanState) (content : Raw) (ty : Option String) :
    ScanState :=
  if ¬ isComponent sc then sc
  else
    let comps :=
      if content matches Raw.null then sc.comps else sc.comps ++ [⟨content, ty⟩]
    { sc with comps := comps, current := "", currentType := "identifier" }

/-- `ISLGroup.from(text).map(x => restoreOriginalType({value: x, type:
"identifier"}))`: split the bracketed span on `|` and literal-coerce each
element. -/
def groupFrom (s : String) : List (Raw × Option String) :=
  (strSplitChar s '|').map fun x =>
    let c := restoreOriginalType ⟨.str x, some "identifier"⟩
    (c.value, c.type)

/-- Resolution of a closed `\...\` variable getter, by the region's current
type: `global-variable` (leading `_` stripped), `parameter`, the
parameter-then-local fallback used inside a call frame, or plain local
lookup. -/
def resolveGetter (st : InterpState) (currentType : String)
    (current : String) : Except ISLError Component :=
  if currentType = "global-variable" then
    getGlobalVarObj st (strDrop current 1)
  else if currentType = "parameter" then
    getParameterObj st current
  else if st.callstack.length > 0 && currentType ≠ "local-variable" then
    match getParameterObj st current with
    | .ok o => .ok o
    | .error _ =>
        match getVarObj st current with
        | .ok v => .ok ⟨v.value, v.type⟩
        | .error e => .error e
  else
    match getVarObj st current with
    | .ok v => .ok ⟨v.value, v.type⟩
    | .error e => .error e

/-- The character loop of `#parseLine`.  `prev` is the character of the
original line just before the one under inspection (`line[index - 1]`);
`cs.head?` after the current character plays `line[index + 1]`.  While
`#skipping` is set (function-declaration body scan) the quote, getter and
bracket rules are disabled and characters merely accumulate. -/
def scanLoop (st : InterpState) (prev : Option Char) (cs : List Char)
    (sc : ScanState) : Except ISLError ScanState :=
  match cs with
  | [] => .ok sc
  | c :: rest =>
      if c = ' ' && !sc.inQuotes && !sc.inBrackets then
        scanLoop st (some c) rest (addComponentStr st sc)
      else if !st.skipping && c = '"' && !sc.inQuotes then
        let sc := addComponentStr st sc
        scanLoop st (some c) rest { sc with inQuotes := true, currentType := "string" }
      else if !st.skipping && c = '"' && sc.inQuotes then
        if sc.currentType ≠ "string" then
          .error ⟨"Unexpected closing '\"'", .synErr⟩
        else
          scanLoop st (some c) rest { addComponentStr st sc with inQuotes := false }
      else if !st.skipping && c = '\\' && !sc.inQuotes && !sc.inBrackets
          && !sc.inBackslashes then
        let sc := addComponentStr st sc
        let sc := { sc with inBackslashes := true }
        let sc :=
          if prev = some '-' then
            { sc with currentType := "local-variable", comps := sc.comps.dropLast }
          else if prev = some ':' then
            { sc with currentType := "parameter", comps := sc.comps.dropLast }
          else { sc with currentType := "variable" }
        let sc :=
          if rest.head? = some '_' then { sc with currentType := "global-variable" }
          else sc
        scanLoop st (some c) rest sc
      else if !st.skipping && c = '\\' && !sc.inQuotes && !sc.inBrackets
          && sc.inBackslashes then
        if sc.currentType ≠ "variable" && sc.currentType ≠ "local-variable"
            && sc.currentType ≠ "parameter" && sc.currentType ≠ "global-variable" then
          .error ⟨"Unexpected closing '\\'", .synErr⟩
        else
          match resolveGetter st sc.currentType sc.current with
          | .error e => .error e
          | .ok obj =>
              let sc := { sc with inBackslashes := false }
              scanLoop st (some c) rest
                { addComponentSet sc obj.value obj.type with current := "" }
      else if !st.skipping && c = '[' && !sc.inQuotes && !sc.inBrackets then
        let sc := addComponentStr st sc
        scanLoop st (some c) rest { sc with inBrackets := true, currentType := "group" }
      else if !st.skipping && c = ']' && !sc.inQuotes && sc.inBrackets then
        if sc.currentType ≠ "group" then
          .error ⟨"Unexpected closing ']'", .synErr⟩
        else
          let sc' := { sc with inBrackets := false }
          scanLoop st (some c) rest
            (addComponentSet sc' (.group (groupFrom sc.current)) (some "group"))
      else
        scanLoop st (some c) rest { sc with current := sc.current.push c }

/-- The scan of one line: the character loop followed by the final
`addComponent(currentComponent)` (which happens before the unterminated
checks). -/
def scanLine (st : InterpState) (line : String) : Except ISLError ScanState :=
  match scanLoop st none line.data {} with
  | .error e => .error e
  | .ok sc => .ok (addComponentStr st sc)

/-- The tokenization part of `#parseLine`: the scan plus the final
validation of the region flags.  An unterminated string, bracket group or
variable getter is a Syntax-kind error raised before `#executeStatement` is
reached. -/
def tokenizeLine (st : InterpState) (line : String) :
    Except ISLError (List Component) :=
  match scanLine st line with
  | .error e => .error e
  | .ok sc =>
      if sc.inQuotes then .error ⟨"Unterminated string literal", .synErr⟩
      else if sc.inBrackets then .error ⟨"Unterminated bracket group", .synErr⟩
      else if sc.inBackslashes then
        .error ⟨"Unterminated variable getter", .synErr⟩
      else .ok sc.comps

/-- The static `#labels` table. -/
def builtinLabels : List LabelDef :=
  [⟨"non-destructive", ["restart"]⟩, ⟨"separated", ["flush"]⟩,
   ⟨"grouped", ["getkeys"]⟩]

/-- `#customLabels`: labels contributed by the registered extensions. -/
def customLabels (st : InterpState) : List LabelDef :=
  st.extensions.flatMap fun e => e.labels

/-- `#isLabel`. -/
def isLabelRaw (kw : Raw) : Bool :=
  builtinLabels.any fun l => rawEqString kw l.label

/-- `#isOwnLabel`. -/
def isOwnLabelRaw (st : InterpState) (kw : Raw) : Bool :=
  (customLabels st).any fun l => rawEqString kw l.label

/-- `#isLabelFor`. -/
def isLabelForRaw (name : String) (kw : Raw) : Bool :=
  builtinLabels.any fun l => l.label = name && l.applicableTo.any (rawEqString kw)

/-- `#isOwnLabelFor`. -/
def isOwnLabelForRaw (st : InterpState) (name : String) (kw : Raw) : Bool :=
  (customLabels st).any fun l => l.label = name && l.applicableTo.any (rawEqString kw)

/-- `#getKeywordsFor` (looks the *keyword* up in the label tables, so it
yields `none` whenever the argument is not itself a label — the error
message then renders `undefined`, as the source does). -/
def getKeywordsFor (st : InterpState) (name : String) : Option (List String) :=
  match builtinLabels.find? fun l => l.label = name with
  | some l => some l.applicableTo
  | none =>
      match (customLabels st).find? fun l => l.label = name with
      | some l => some l.applicableTo
      | none => none

/-- JS strict equality `===` on raw values.  `===` between two groups is
reference equality; two separately produced groups are never the same
object, which is modelled as `false`. -/
def jsStrictEq (a b : Raw) : Bool :=
  match a, b with
  | .num q, .num r => q = r
  | .str s, .str t => s = t
  | .bool x, .bool y => x = y
  | .null, .null => true
  | _, _ => false

/-- JS `<` restricted to same-kind numeric and string comparisons (mixed
operands coerce through `ToPrimitive` in JS; approximated as `false`, not
exercised by any claim). -/
def jsLt (a b : Raw) : Bool :=
  match a, b with
  | .num q, .num r => q < r
  | .str s, .str t => s < t
  | _, _ => false

/-- `ISLGroup.includes`: `===`-membership of a raw value among the group
elements' values. -/
def groupIncludes (elems : List (Raw × Option String)) (v : Raw) : Bool :=
  elems.any fun p => jsStrictEq p.1 v

/-- Substring containment, approximating `new RegExp(val1, "g").test(val2)`
for patterns without regex metacharacters (the source conflates membership
with a regex test here; metacharacter semantics are not modelled and no
claim exercises them). -/
def strContains (hay needle : String) : Bool :=
  (List.range (hay.data.length + 1)).any fun i =>
    (hay.data.drop i).take needle.data.length = needle.data

/-- `#compare`: the `if` keyword's comparator dispatch. -/
def compareOp (val1 : Raw) (op : Raw) (val2 : Raw) : Except ISLError Bool :=
  match op with
  | .str "=" => .ok (jsStrictEq val1 val2)
  | .str "<" => .ok (jsLt val1 val2)
  | .str ">" => .ok (jsLt val2 val1)
  | .str "!=" => .ok (! jsStrictEq val1 val2)
  | .str "in" =>
      match val2 with
      | .group elems => .ok (groupIncludes elems val1)
      | _ => .ok (strContains (rawKeyString val2) (rawKeyString val1))
  | o =>
      .error ⟨"Operator '" ++ rawKeyString o ++ "' is not recognised.",
        .synErr⟩

/-- The static `#deprecated` feature table: display name, deprecation type
and replacement hint per feature. -/
def deprecatedTable : List (String × String) :=
  [("webprompt",
    "Deprecated feature used: 'webprompt' (keyword)\nFeature has been renamed.\nUse 'popup-input' instead."),
   ("declare",
    "Deprecated feature used: 'declare var/cmd' (keyword)\nFeature has been split.\nUse 'string', 'function' or 'number' instead."),
   ("flush",
    "Deprecated feature used: 'flush' (keyword)\nFeature has been merged.\nUse 'log' instead.")]

/-- `#handleDeprecatedFeature`: returns the warned state when the feature is
deprecated (`none` when it is not). -/
def handleDeprecatedFeature (st : InterpState) (feature : String)
    (kind : String) : Option InterpState :=
  match lookupAssoc deprecatedTable feature with
  | none => none
  | some msg => some (warnOnce st ("deprecated." ++ kind ++ "." ++ feature) msg)

/-- `#validateDescriptor`: overlay the descriptor on the defaults
`{type: "string", name: "<unnamed argument>", optional: false}`, warn once
when the descriptor has no type, require a value for non-optional inputs,
and check the input's type tag against the pipe-separated accepted set
unless that set is `any`. -/
def validateDescriptor (st : InterpState) (keyword : String)
    (input : Option Component) (descriptor : Descriptor) : ExecResult :=
  let aType := descriptor.type.getD "string"
  let aName := descriptor.name.getD "<unnamed argument>"
  let st :=
    if descriptor.type = none then
      warnOnce st "desc.badtype"
        ("[line " ++ toString (pc st) ++ "] Input '<unnamed argument>' has no type descriptor, defaulting to 'string'.")
    else st
  let typeOk :=
    match input with
    | none => (strSplitChar aType '|').contains "undefined"
    | some c =>
        match c.type with
        | some t => (strSplitChar aType '|').contains t
        | none => false
  if !descriptor.optional && input.isNone then
    .error (st, ⟨"'" ++ keyword ++ "' requires a value for input '" ++ aName ++
      "'", .typeErr⟩)
  else if !typeOk && (aType != "any") then
    .error (st, ⟨"'" ++ keyword ++ "' expects type '" ++ aType ++ "'" ++
      (if descriptor.optional then " or nothing" else "") ++ " for input '" ++
      aName ++ "'", .typeErr⟩)
  else .ok st

/-- The positional descriptor-validation loop of `#executeStatement`: walks
`descriptors` against `parts[index + 1]`; a `recurring` descriptor (with a
present `parts[index]`) extends the loop bound to `parts.length - 1` and
becomes the fallback descriptor for the remaining positions.  The loop is
expressed with explicit fuel (the bound can be raised once, mid-loop);
`descriptors.length + parts.length + 1` steps always suffice. -/
def descriptorLoopGo (st : InterpState) (kw : String)
    (descriptors : List Descriptor) (parts : List Component) (fuel : ℕ)
    (index len : ℕ) (fallback : Option Descriptor) : ExecResult :=
  match fuel with
  | 0 => .ok st
  | fuel + 1 =>
      if index < len then
        let descriptorOpt :=
          match descriptors[index]? with
          | some d => some d
          | none => fallback
        let isRec := match descriptors[index]? with
                     | some d => d.recurring
                     | none => false
        let hasPart := (parts[index]?).isSome
        let len' := if isRec && hasPart then parts.length - 1 else len
        let fallback' := if isRec && hasPart then descriptorOpt else fallback
        match descriptorOpt with
        | none => descriptorLoopGo st kw descriptors parts fuel (index + 1) len' fallback'
        | some d =>
            match validateDescriptor st kw parts[index + 1]? d with
            | .error e => .error e
            | .ok st' =>
                descriptorLoopGo st' kw descriptors parts fuel (index + 1) len' fallback'
      else .ok st

/-- Entry point of the descriptor-validation loop. -/
def descriptorLoop (st : InterpState) (kw : String)
    (descriptors : List Descriptor) (parts : List Component) : ExecResult :=
  descriptorLoopGo st kw descriptors parts
    (descriptors.length + parts.length + 1) 0 descriptors.length none

/-- The descriptor lists of the `#defaultKeywords` table (every built-in
keyword supplies one; `[]` means "no arguments validated"). -/
def builtinDescriptors (kw : String) : Option (List Descriptor) :=
  let ident : Descriptor := { type := some "identifier", name := some "name" }
  match kw with
  | "var" => some [ident]
  | "number" => some [ident]
  | "string" => some [ident]
  | "function" => some [ident]
  | "delete" => some [ident]
  | "end" => some [ident]
  | "execute" => some [ident]
  | "set" => some [ident, { type := some "any", name := some "value" }]
  | "add" => some [ident, { type := some "any", name := some "value" }]
  | "subtract" => some [ident, { type := some "number", name := some "value" }]
  | "multiply" => some [ident, { type := some "number", name := some "value" }]
  | "divide" => some [ident, { type := some "number", name := some "value" }]
  | "round" => some [ident]
  | "exponent" => some [ident, { type := some "number", name := some "power" }]
  | "root" => some [ident, { type := some "number", name := some "root" }]
  | "negate" => some [ident]
  | "log" => some [{ type := some "any", name := some "message", recurring := true }]
  | "flush" => some []
  | "popup-input" =>
      some [{ type := some "identifier", name := some "target" },
            { type := some "any", name := some "message" }]
  | "awaitkey" =>
      some [{ type := some "identifier", name := some "target" },
            { type := some "keyword", name := some "manipulator" }]
  | "getkeys" =>
      some [{ type := some "identifier", name := some "target" },
            { type := some "keyword", name := some "manipulator" }]
  | "restart" => some []
  | "rundelay" => some [{ type := some "number", name := some "speed" }]
  | "stop" => some []
  | "pause" => some [{ type := some "number", name := some "delay" }]
  | "if" =>
      some [{ type := some "any", name := some "value 1" },
            { type := some "comparator", name := some "comparator" },
            { type := some "any", name := some "value 2" },
            { type := some "any", name := some "code", recurring := true }]
  | "jump" => some [{ type := some "number|relpos", name := some "line" }]
  | "export" =>
      some [{ type := some "identifier", name := some "local" },
            { type := some "string", name := some "external" }]
  | "import" =>
      some [{ type := some "string", name := some "external" },
            { type := some "identifier", name := some "local" }]
  | _ => none

/-- `inputs[i]`; a missing input dereferenced with `.value` throws a
host-level `TypeError` in JS. -/
def getInput (inputs : List Component) (i : ℕ) : Except ISLError Component :=
  match inputs[i]? with
  | some c => .ok c
  | none =>
      .error ⟨"Cannot read properties of undefined (reading 'value')",
        .internalErr⟩

/-- `#isl_log` followed by the `#flush` it performs: push the values onto
the internal console, then hand the whole console to the log callback. -/
def isl_log (st : InterpState) (values : List Raw) : InterpState :=
  let st := { st with console := st.console ++ values }
  { st with outputLog := st.outputLog ++ [st.console], console := [] }

/-- `#flush`: hand the internal console to the log callback as one batch. -/
def islFlush (st : InterpState) : InterpState :=
  { st with outputLog := st.outputLog ++ [st.console], console := [] }

/-- `#flushSeparate`: hand the internal console over line by line. -/
def islFlushSeparate (st : InterpState) : InterpState :=
  { st with outputLog := st.outputLog ++ (st.console.map fun r => [r]),
            console := [] }

/-- `#handleDisallowedOperation`: warn (optionally halting first). -/
def handleDisallowedOperation (st : InterpState) (msg : String) : InterpState :=
  if st.haltOnDisallowedOperation then
    warn (stopExecution st) ("Disallowed Operation: " ++ msg ++ " | Execution halted")
  else warn st ("Disallowed Operation: " ++ msg ++ " ")

/-- `#isl_round` (`Math.round` rounds half toward positive infinity). -/
def isl_round (st : InterpState) («variable» : String) : ExecResult :=
  match lookupAssoc st.localVariables «variable» with
  | none =>
      .error (st, ⟨"Variable '" ++ «variable» ++ "' does not exist!",
        .reference⟩)
  | some v =>
      if v.type ≠ some "number" then
        .error (st, ⟨"Cannot round a variable with type '" ++ toString v.type ++
          "'", .typeErr⟩)
      else
        .ok { st with localVariables :=
                (updateAssoc st.localVariables «variable»
                  ⟨.num ((⌊asNumeric v.value + 1/2⌋ : ℤ) : ℚ), some "number",
                    v.declared⟩) }

/-- `#isl_negate`. -/
def isl_negate (st : InterpState) («variable» : String) : ExecResult :=
  match lookupAssoc st.localVariables «variable» with
  | none =>
      .error (st, ⟨"Variable '" ++ «variable» ++ "' does not exist!",
        .reference⟩)
  | some v =>
      if v.type ≠ some "number" then
        .error (st, ⟨"Cannot negate a variable with type '" ++ toString v.type ++
          "'", .typeErr⟩)
      else
        .ok { st with localVariables :=
                (updateAssoc st.localVariables «variable»
                  ⟨.num (-(asNumeric v.value)), some "number", v.declared⟩) }

/-- `#isl_awaitkey`: arm the key-press listener. -/
def isl_awaitkey (st : InterpState) («variable» : String) (type : String) :
    ExecResult :=
  if ¬ doesVarExist st «variable» then
    .error (st, ⟨"Variable '" ++ «variable» ++ "' does not exist!",
      .reference⟩)
  else
    .ok { st with listeningForKeyPress := true, listenerTarget := «variable»,
                  listenerManipulationType := type }

/-- `#isl_getkeys`: write the currently pressed keys (grouped or
comma-joined) into a string-typed variable. -/
def isl_getkeys (st : InterpState) («variable» : String) (type : String) :
    ExecResult :=
  if ¬ doesVarExist st «variable» then
    .error (st, ⟨"Variable '" ++ «variable» ++ "' does not exist!",
      .reference⟩)
  else
    let output :=
      if st.currentLabels.contains "grouped" then
        "[" ++ String.intercalate "|" st.pressed ++ "]"
      else String.intercalate "," st.pressed
    match lookupAssoc st.localVariables «variable» with
    | none =>
        .error (st, ⟨"Variable '" ++ «variable» ++ "' does not exist!",
          .reference⟩)
    | some v =>
        if v.type ≠ some "string" then
          .error (st, ⟨"Variable with type '" ++ toString v.type ++
            "' cannot be set to value with type 'string'", .typeErr⟩)
        else if type = "add" then
          .ok { st with localVariables :=
                  (updateAssoc st.localVariables «variable»
                    ⟨jsAdd v.value (.str output), some "string", v.declared⟩) }
        else if type = "set" then
          .ok { st with localVariables :=
                  (updateAssoc st.localVariables «variable»
                    ⟨.str output, some "string", v.declared⟩) }
        else
          .error (st, ⟨"Type " ++ type ++
            " for 'getkeys' not recognised, should be 'add' or 'set'",
            .synErr⟩)

/-- `#isl_popup_input`: ask the host for a line (the `prompt()` result is
the `promptResponse` oracle), literal-coerce it as a string-typed component
(which leaves it unchanged), and assign it. -/
def isl_popup_input (st : InterpState) («variable» : String) : ExecResult :=
  if ¬ doesVarExist st «variable» then
    .error (st, ⟨"Variable '" ++ «variable» ++ "' does not exist!",
      .reference⟩)
  else
    isl_set st «variable»
      (restoreOriginalType ⟨.str st.promptResponse, some "string"⟩)

/-- `#isl_export`: when exporting is allowed, write a local variable's value
to a host path (a pure host effect); otherwise report a disallowed
operation. -/
def isl_export (st : InterpState) (local_ external : String) : ExecResult :=
  if st.allowExport then
    if ¬ doesVarExist st local_ then
      .error (st, ⟨"Variable '" ++ local_ ++ "' does not exist!", .reference⟩)
    else .ok { st with hostEffects := st.hostEffects ++ ["export " ++ external] }
  else .ok (handleDisallowedOperation st ("Export to " ++ external ++ "."))

/-- `#isl_import`: when importing is allowed, assign the host-provided value
(the `importValue` oracle, standing for `#getVariableFromFullPath`'s result
viewed through its `.value`/`.type` projections) to a local variable via
`#isl_set`; otherwise report a disallowed operation. -/
def isl_import (st : InterpState) (external local_ : String) : ExecResult :=
  if st.allowImport then
    if ¬ doesVarExist st local_ then
      .error (st, ⟨"Variable '" ++ local_ ++ "' does not exist!", .reference⟩)
    else isl_set st local_ st.importValue
  else .ok (handleDisallowedOperation st ("Import of " ++ external ++ "."))

/-- The callbacks of every built-in keyword except `if` (whose nested
statement execution recurses into `executeStatement`).  `labels` is the
`#currentLabels` list the callback receives; `inputs` is `parts.slice(1)`. -/
def runBuiltinPure (st : InterpState) (kw : String) (labels : List String)
    (inputs : List Component) : ExecResult :=
  match kw with
  | "var" =>
      match getInput inputs 0 with
      | .error e => .error (st, e)
      | .ok c => isl_declare st "var" (rawKeyString c.value) Raw.null none []
  | "number" =>
      match getInput inputs 0 with
      | .error e => .error (st, e)
      | .ok c =>
          isl_declare st "var" (rawKeyString c.value) (.num 0) (some "number") []
  | "string" =>
      match getInput inputs 0 with
      | .error e => .error (st, e)
      | .ok c =>
          isl_declare st "var" (rawKeyString c.value) (.str "") (some "string") []
  | "function" =>
      match getInput inputs 0 with
      | .error e => .error (st, e)
      | .ok c =>
          isl_declare st "cmd" (rawKeyString c.value) Raw.null (some "function")
            (inputs.drop 1)
  | "delete" =>
      match getInput inputs 0 with
      | .error e => .error (st, e)
      | .ok c => isl_delete st (rawKeyString c.value)
  | "end" =>
      match getInput inputs 0 with
      | .error e => .error (st, e)
      | .ok c => isl_end st (rawKeyString c.value)
  | "execute" =>
      match getInput inputs 0 with
      | .error e => .error (st, e)
      | .ok c => isl_execute st (rawKeyString c.value) (inputs.drop 1)
  | "set" =>
      match getInput inputs 0 with
      | .error e => .error (st, e)
      | .ok c =>
          match getInput inputs 1 with
          | .error e => .error (st, e)
          | .ok v => isl_set st (rawKeyString c.value) v
  | "add" =>
      match getInput inputs 0 with
      | .error e => .error (st, e)
      | .ok c =>
          match getInput inputs 1 with
          | .error e => .error (st, e)
          | .ok v => isl_add st (rawKeyString c.value) v
  | "subtract" =>
      match getInput inputs 0 with
      | .error e => .error (st, e)
      | .ok c =>
          match getInput inputs 1 with
          | .error e => .error (st, e)
          | .ok v => numericBinOp st (rawKeyString c.value) v "subtract from"
              (fun a b => a - b)
  | "multiply" =>
      match getInput inputs 0 with
      | .error e => .error (st, e)
      | .ok c =>
          match getInput inputs 1 with
          | .error e => .error (st, e)
          | .ok v => numericBinOp st (rawKeyString c.value) v "multiply"
              (fun a b => a * b)
  | "divide" =>
      match getInput inputs 0 with
      | .error e => .error (st, e)
      | .ok c =>
          match getInput inputs 1 with
          | .error e => .error (st, e)
          | .ok v => numericBinOp st (rawKeyString c.value) v "divide"
              (fun a b => a / b)
  | "round" =>
      match getInput inputs 0 with
      | .error e => .error (st, e)
      | .ok c => isl_round st (rawKeyString c.value)
  | "exponent" =>
      match getInput inputs 0 with
      | .error e => .error (st, e)
      | .ok c =>
          match getInput inputs 1 with
          | .error e => .error (st, e)
          | .ok v => numericBinOp st (rawKeyString c.value) v "exponentiate" qPow
  | "root" =>
      match getInput inputs 0 with
      | .error e => .error (st, e)
      | .ok c =>
          match getInput inputs 1 with
          | .error e => .error (st, e)
          | .ok v => numericBinOp st (rawKeyString c.value) v
              "calculate nth root of" (fun a b => qPow a b⁻¹)
  | "negate" =>
      match getInput inputs 0 with
      | .error e => .error (st, e)
      | .ok c => isl_negate st (rawKeyString c.value)
  | "log" => .ok (isl_log st (inputs.map fun c => c.value))
  | "flush" =>
      if labels.contains "separated" then .ok (islFlushSeparate st)
      else .ok (islFlush st)
  | "popup-input" =>
      match getInput inputs 0 with
      | .error e => .error (st, e)
      | .ok c => isl_popup_input st (rawKeyString c.value)
  | "awaitkey" =>
      match getInput inputs 0 with
      | .error e => .error (st, e)
      | .ok c =>
          match getInput inputs 1 with
          | .error e => .error (st, e)
          | .ok v => isl_awaitkey st (rawKeyString c.value) (rawKeyString v.value)
  | "getkeys" =>
      match getInput inputs 0 with
      | .error e => .error (st, e)
      | .ok c =>
          match getInput inputs 1 with
          | .error e => .error (st, e)
          | .ok v => isl_getkeys st (rawKeyString c.value) (rawKeyString v.value)
  | "restart" =>
      -- stop (non-destructively under the label), then start again; the
      -- restarted timer itself is host-side
      let st := if labels.contains "non-destructive" then stopExecution st
                else stopExecutionDestructive st
      .ok { st with stopped := false }
  | "rundelay" =>
      match getInput inputs 0 with
      | .error e => .error (st, e)
      | .ok c => .ok { st with executeSpeed := asNumeric c.value }
  | "stop" => .ok (fullReset st)
  | "pause" =>
      match getInput inputs 0 with
      | .error e => .error (st, e)
      | .ok c => .ok { st with waits := st.waits + asNumeric c.value }
  | "jump" =>
      match getInput inputs 0 with
      | .error e => .error (st, e)
      | .ok c => .ok (goToLine st c)
  | "export" =>
      match getInput inputs 0 with
      | .error e => .error (st, e)
      | .ok c =>
          match getInput inputs 1 with
          | .error e => .error (st, e)
          | .ok v => isl_export st (rawKeyString c.value) (rawKeyString v.value)
  | "import" =>
      match getInput inputs 0 with
      | .error e => .error (st, e)
      | .ok c =>
          match getInput inputs 1 with
          | .error e => .error (st, e)
          | .ok v => isl_import st (rawKeyString c.value) (rawKeyString v.value)
  | _ =>
      .error (st, ⟨"Keyword or label '" ++ kw ++ "' not recognised", .synErr⟩)

/-- The label-applicability check: every accumulated current label must be
applicable (as a built-in or extension label) to the keyword that finally
remains. -/
def checkLabels (st : InterpState) (labels : List String) (keyword : Raw) :
    Except ISLError Unit :=
  match labels with
  | [] => .ok ()
  | l :: rest =>
      if isLabelForRaw l keyword || isOwnLabelForRaw st l keyword then
        checkLabels st rest keyword
      else
        .error ⟨"Label '" ++ l ++ "' is not applicable to '" ++
          rawKeyString keyword ++ "', only to: " ++
          toString (getKeywordsFor st (rawKeyString keyword)), .synErr⟩

/-- `#executeStatement`: label stripping, ignore handling, skipping mode,
deprecated-feature handling, keyword resolution (built-in table first, then
extension keywords), descriptor validation and callback invocation.  The
recursion — covering both the label-stripping loop and the nested statement
execution of `if` — shortens the component list by at least one on every
round, so the structural `fuel` parameter (`parts.length + 1` at every
entry, see `executeStatement`) never runs out. -/
def executeStatementGo (fuel : ℕ) (st : InterpState)
    (parts : List Component) : ExecResult :=
  match fuel with
  | 0 => .error (st, ⟨"statement nesting exhausted", .internalErr⟩)
  | fuel + 1 =>
  match parts with
  | [] =>
      .error (st, ⟨"Cannot read properties of undefined (reading 'value')",
        .internalErr⟩)
  | first :: restParts =>
      let keyword := first.value
      if st.ignored.any fun s => rawEqString keyword s then .ok st
      else if isLabelRaw keyword ||
          (isOwnLabelRaw st keyword && !restParts.isEmpty) then
        executeStatementGo fuel
          { st with currentLabels := st.currentLabels ++ [rawKeyString keyword] }
          restParts
      else
        match checkLabels st st.currentLabels keyword with
        | .error e => .error (st, e)
        | .ok _ =>
            if st.skipping then
              if rawEqString keyword "end" then
                let st := { st with invoked := st.invoked ++ [.builtin "end"] }
                match restParts.head? with
                | none =>
                    .error (st,
                      ⟨"Cannot read properties of undefined (reading 'value')",
                        .internalErr⟩)
                | some c =>
                    match isl_end st (rawKeyString c.value) with
                    | .error e => .error e
                    | .ok st' => .ok { st' with skipping := false }
              else .ok st
            else
              let kwStr := rawKeyString keyword
              match handleDeprecatedFeature st kwStr "keyword" with
              | some st' => .ok st'
              | none =>
                  match builtinDescriptors kwStr with
                  | some descs =>
                      (match descriptorLoop st kwStr descs parts with
                       | .error e => .error e
                       | .ok st =>
                           let st :=
                             { st with invoked := st.invoked ++ [.builtin kwStr] }
                           if kwStr = "if" then
                             match getInput restParts 0 with
                             | .error e => .error (st, e)
                             | .ok c0 =>
                                 match getInput restParts 1 with
                                 | .error e => .error (st, e)
                                 | .ok c1 =>
                                     match getInput restParts 2 with
                                     | .error e => .error (st, e)
                                     | .ok c2 =>
                                         match compareOp c0.value c1.value c2.value with
                                         | .error e => .error (st, e)
                                         | .ok true =>
                                             (match executeStatementGo fuel st (restParts.drop 3) with
                                              | .error e => .error e
                                              | .ok st' =>
                                                  .ok { st' with currentLabels := [] })
                                         | .ok false =>
                                             .ok { st with currentLabels := [] }
                           else
                             match runBuiltinPure st kwStr st.currentLabels restParts with
                             | .error e => .error e
                             | .ok st' => .ok { st' with currentLabels := [] })
                  | none =>
                      match lookupAssoc st.customKeywords kwStr with
                      | some ck =>
                          (match
                              (match ck.descriptors with
                               | some ds => descriptorLoop st kwStr ds parts
                               | none => .ok st) with
                           | .error e => .error e
                           | .ok st =>
                               .ok { st with
                                 invoked :=
                                   st.invoked ++ [.custom ck.source ck.callbackId]
                                 currentLabels := [] })
                      | none =>
                          .error (st, ⟨"Keyword or label '" ++
                            rawKeyString keyword ++ "' not recognised", .synErr⟩)

/-- `#executeStatement` entry point: the nesting bound `parts.length + 1`
always suffices, since every recursive round strictly shortens the
component list. -/
def executeStatement (st : InterpState) (parts : List Component) : ExecResult :=
  executeStatementGo (parts.length + 1) st parts

/-- `#parseLine`: tokenize the line, then (only when every region was
properly terminated) hand the components to the statement executor. -/
def parseLine (st : InterpState) (line : String) : ExecResult :=
  match tokenizeLine st line with
  | .error e => .error (st, e)
  | .ok comps => executeStatement st comps

/-- `#hasExtensionWithId`. -/
def hasExtensionWithId (st : InterpState) (id : String) : Bool :=
  st.extensions.any fun e => e.id = id

/-- `#parseMeta`: the bracketed meta-tag directives `require`, `ignore`,
`environment`/`env` and `display`. -/
def parseMeta (st : InterpState) (metaTag : String) : ExecResult :=
  let meta := strDropLast (strDrop metaTag 1)
  let parts := strSplitChar meta ' '
  let tag := parts.headD ""
  let value := String.intercalate " " (parts.drop 1)
  if tag = "require" then
    if ¬ hasExtensionWithId st value then
      .error (st, ⟨"Required extension '" ++ value ++ "' is not present",
        .environment⟩)
    else .ok st
  else if tag = "ignore" then
    if ¬ st.ignored.contains value then
      .ok { st with ignored := st.ignored ++ strSplitChar value ' ' }
    else .ok st
  else if tag = "environment" ∨ tag = "env" then
    if st.environment ≠ value then
      .error (st, ⟨"Incorrect environment for operation: File requires '" ++
        value ++ "', got '" ++ st.environment ++ "'", .environment⟩)
    else .ok st
  else if tag = "display" then
    if value.length > 0 then
      .ok { st with realFilename := st.filename, filename := value }
    else
      .error (st, ⟨"Display name must be a non-empty string", .synErr⟩)
  else .ok st

/-- `#removeISLComment`: everything before the first `//` (the split is
blind — it applies even inside a string literal, as in the source). -/
def removeISLComment (line : String) : String :=
  ⟨cutAtComment line.data⟩

/-- The meta-tag line test `/^\[.*\]$/` (without the `m` flag, `.` excludes
newlines and `$` anchors at the very end). -/
def isMetaLine (line : String) : Bool :=
  line.data.head? = some '[' && line.data.getLast? = some ']' &&
    line.length ≥ 2 && line.data.all fun c => c ≠ '\n'

/-- `#executeLineInternal`: skip blank lines, strip the comment, trim, and
route the line to the meta-tag parser or the statement pipeline. -/
def executeLineInternal (st : InterpState) (line : String) : ExecResult :=
  if line = "" ∨ line = "\n" then .ok st
  else
    let noComment := strTrim (removeISLComment line)
    if noComment = "" ∨ noComment = "\n" then .ok st
    else if isMetaLine noComment then parseMeta st noComment
    else parseLine st noComment

/-- `executeLine`: the public single-line entry point; any thrown error is
caught and routed to `#handleError`. -/
def executeLine (st : InterpState) (line : String) : InterpState :=
  match executeLineInternal st line with
  | .ok st' => st'
  | .error (st', e) => handleError st' e

/-- `this.#isl[i]` with an integer index. -/
def islGet (isl : List String) (i : ℤ) : Option String :=
  if i < 0 then none else isl[i.toNat]?

/-- The `#isWaiting` getter: reading it while a pause countdown is positive
*consumes one unit of the countdown* (the getter decrements `#waits` as a
side effect); an armed key-press listener waits without consuming
anything. -/
def isWaitingStep (st : InterpState) : Bool × InterpState :=
  if st.listeningForKeyPress then (true, st)
  else if st.waits > 0 then (true, { st with waits := st.waits - 1 })
  else (false, st)

/-- `#executeISL`: one instruction step.  Reads (and thereby possibly
consumes) `#isWaiting`; when free and not stopped, executes the current
line and advances the cursor, resetting (soft) past the end of the program
region and fully resetting past the last line.  (`this.#isl` is always an
array, hence always truthy; the `"No ISL defined"` branch is
unreachable.) -/
def executeISL (st : InterpState) : ExecResult :=
  let ws := isWaitingStep st
  let st := ws.2
  if ¬ ws.1 ∧ ¬ st.stopped then
    match islGet st.isl st.counter with
    | some line =>
        (match executeLineInternal st line with
         | .error e => .error e
         | .ok st =>
             let st := { st with counter := st.counter + 1 }
             if pc st > st.isl.length then .ok (fullReset st) else .ok st)
    | none => .ok (reset st)
  else .ok st

/-- The body of `#executeAllISL`'s `for` loop, with explicit fuel (the
cursor is freely retargeted by `jump`, so the source loop need not
terminate; any sufficiently large fuel gives the loop's behaviour on
terminating runs). -/
def executeAllLoop (fuel : ℕ) (st : InterpState) : ExecResult :=
  match fuel with
  | 0 => .ok st
  | fuel + 1 =>
      if st.counter < st.isl.length then
        let ws := isWaitingStep st
        let st := ws.2
        if ¬ ws.1 ∧ ¬ st.stopped then
          match islGet st.isl st.counter with
          | some line =>
              if line = "" then
                .error (reset st,
                  ⟨"Empty ISL elements are not allowed in executeAllISL",
                    .synErr⟩)
              else
                (match executeLineInternal st line with
                 | .error e => .error e
                 | .ok st =>
                     executeAllLoop fuel { st with counter := st.counter + 1 })
          | none =>
              .error (reset st,
                ⟨"Empty ISL elements are not allowed in executeAllISL",
                  .synErr⟩)
        else executeAllLoop fuel { st with counter := st.counter + 1 }
      else .ok st

/-- `#executeAllISL` (`instant` mode): soft reset, then run every remaining
line in one synchronous pass. -/
def executeAllISL (fuel : ℕ) (st : InterpState) : ExecResult :=
  executeAllLoop fuel { reset st with counter := 0 }

/-- The instruction loop of one scheduler tick: up to `instructionsAtOnce`
calls of `#executeISL`, each gated on `#stopped`. -/
def tickLoop (n : ℕ) (st : InterpState) : ExecResult :=
  match n with
  | 0 => .ok st
  | n + 1 =>
      if st.stopped then tickLoop n st
      else
        match executeISL st with
        | .error e => .error e
        | .ok st' => tickLoop n st'

/-- The `setInterval` callback installed by `startExecution`: one scheduler
tick.  Everything thrown inside is caught and handed to `#handleError`.
`fuel` is consumed only by the `instant` (run-to-completion) branch. -/
def startExecutionTick (fuel : ℕ) (st : InterpState) : InterpState :=
  let body := if st.instant then executeAllISL fuel st
              else tickLoop st.instructionsAtOnce st
  match body with
  | .ok st' => st'
  | .error (st', e) => handleError st' e

/-- `extend`: extension registration.  An extension without an identifier is
rejected; keywords are merged into `#customKeywords` (later registrations
overwrite earlier bindings of the same name, each entry remembering its
owning extension), variables into `#globalVariables`, and custom types into
the `#literals` table.  (The label merge in the source is commented out;
labels are served by the live `#customLabels` getter over `#extensions`.) -/
def extend (st : InterpState) (ext : ExtensionModel) : ExecResult :=
  if ext.id = "" then
    .error (st, ⟨"Attempt to import extension without an identifier",
      .environment⟩)
  else
    let st := { st with extensions := st.extensions ++ [ext] }
    let st := { st with
      customKeywords := ext.keywords.foldl
        (fun t (p : String × CustomKeywordDef) =>
          updateAssoc t p.1 ⟨p.2.callbackId, p.2.descriptors, ext.id⟩)
        st.customKeywords }
    let st := { st with
      globalVariables := ext.«variables».foldl
        (fun t (p : String × Component) => updateAssoc t p.1 p.2)
        st.globalVariables }
    .ok { st with
      literalsExtra := ext.types.foldl
        (fun t (p : String × (String → Bool)) => updateAssoc t p.1 p.2)
        st.literalsExtra }

/-- `loadISL`. -/
def loadISL (st : InterpState) (array : List String) (source : String) :
    InterpState :=
  { st with isl := array, loaded := true, counter := 0,
            filename := if source ≠ "" then source else st.filename,
            realFilename := if source ≠ "" then "" else st.realFilename }

/-- A state holding a loaded program `pre ++ line :: post` with the cursor
on `line` (0-based cursor `pre.length`, 1-based program position
`pre.length + 1`); every other field is at its freshly-constructed
default. -/
def progState (pre : List String) (line : String) (post : List String) :
    InterpState :=
  { initialState with isl := pre ++ line :: post, counter := (pre.length : ℤ) }

/-! ## General lemmas about the embedded operations -/

theorem lookupAssoc_updateAssoc_self {α : Type} (l : List (String × α))
    (k : String) (v : α) : lookupAssoc (updateAssoc l k v) k = some v := by
  induction l with
  | nil => simp [updateAssoc, lookupAssoc]
  | cons p rest ih =>
      by_cases h : p.1 = k
      · simp [updateAssoc, h, lookupAssoc]
      · simp [updateAssoc, h, lookupAssoc, ih]

theorem lookupAssoc_map_entry {α β : Type} (l : List (String × α))
    (f : α → β) (k : String) :
    lookupAssoc (l.map fun p => (p.1, f p.2)) k =
      (lookupAssoc l k).map f := by
  induction l with
  | nil => simp [lookupAssoc]
  | cons p rest ih =>
      by_cases h : p.1 = k
      · simp [lookupAssoc, h]
      · simp [lookupAssoc, h, ih]

theorem warnOnce_localVariables (st : InterpState) (id msg : String) :
    (warnOnce st id msg).localVariables = st.localVariables := by
  by_cases h1 : ("." ++ id ++ "|" ++ toString (pc st)) ∈ st.warnedFor <;>
    by_cases h2 : st.silenced = true <;> simp [warnOnce, warn, h1, h2]

theorem warnOnce_counter (st : InterpState) (id msg : String) :
    (warnOnce st id msg).counter = st.counter := by
  by_cases h1 : ("." ++ id ++ "|" ++ toString (pc st)) ∈ st.warnedFor <;>
    by_cases h2 : st.silenced = true <;> simp [warnOnce, warn, h1, h2]

/-- Soft reset retains every variable entry, merely clearing its
`declared` flag. -/
theorem reset_retains_variable (st : InterpState) (name : String)
    (entry : VarEntry) (h : lookupAssoc st.localVariables name = some entry) :
    lookupAssoc (reset st).localVariables name =
      some { entry with declared := false } := by
  have h2 := lookupAssoc_map_entry st.localVariables
    (fun e => { e with declared := false }) name
  simp only [reset]
  rw [h2, h]
  rfl

/-! ## The claims -/

/-- **C1** — For every declared local variable and every `set` statement:
if the variable's stored type tag is already established (`some t`) and
differs from the incoming value's tag, the assignment fails with a
Type-kind error and the interpreter state — in particular the variable's
value — is unchanged; if no type tag has been established yet (tag
undefined), the assignment adopts the incoming value's tag and stores the
value. -/
theorem C1_set_type_discipline (st : InterpState) (name : String)
    (value : Component) (entry : VarEntry)
    (h : lookupAssoc st.localVariables name = some entry) :
    (∀ t, entry.type = some t → value.type ≠ some t →
      ∃ msg, isl_set st name value = .error (st, ⟨msg, .typeErr⟩)) ∧
    (entry.type = none →
      isl_set st name value =
        .ok { st with localVariables :=
                (updateAssoc st.localVariables name
                  ⟨value.value, value.type, entry.declared⟩) }) := by
  constructor
  · intro t ht hne
    refine ⟨"Cannot set a variable with type '" ++ toString (some t : Option String) ++
      "' to a value of type '" ++ toString value.type ++ "'", ?_⟩
    simp [isl_set, h, ht, Ne.symm hne]
  · intro ht
    simp [isl_set, h, ht]

def c1StateA : InterpState :=
  { initialState with localVariables := [("x", ⟨.num 1, some "number", true⟩)] }

def c1StateB : InterpState :=
  { initialState with localVariables := [("y", ⟨.null, none, true⟩)] }

/-- Witness for C1 at a concrete state: variable `x` with established tag
`number` rejects a string value with a Type-kind error, and variable `y`
with no tag yet adopts the incoming `string` tag and stores the value. -/
theorem C1_set_type_discipline_witness :
    (∃ msg, isl_set c1StateA "x" ⟨.str "s", some "string"⟩ =
      .error (c1StateA, ⟨msg, .typeErr⟩)) ∧
    isl_set c1StateB "y" ⟨.str "s", some "string"⟩ =
    .ok { c1StateB with
          localVariables := [("y", ⟨.str "s", some "string", true⟩)] } := by
  constructor
  · exact (C1_set_type_discipline c1StateA "x" ⟨.str "s", some "string"⟩
      ⟨.num 1, some "number", true⟩ rfl).1 "number" rfl (by decide)
  · exact (C1_set_type_discipline c1StateB "y" ⟨.str "s", some "string"⟩
      ⟨.null, none, true⟩ rfl).2 rfl


/-- `#isl_declare` on a variable that exists but is not marked declared in
the current pass overwrites the entry and succeeds. -/
theorem isl_declare_var_not_declared (s : InterpState) (name : String)
    (initial : Raw) (ty : Option String) (e : VarEntry)
    (he : lookupAssoc s.localVariables name = some e)
    (hnd : e.declared = false) :
    ∃ s', isl_declare s "var" name initial ty [] = .ok s' ∧
      lookupAssoc s'.localVariables name = some ⟨initial, ty, true⟩ := by
  by_cases hty : ty = none
  · subst hty
    have hw := warnOnce_localVariables s "var.notype"
      ("No type set for variable '" ++ name ++ "' (declared line " ++
        toString (pc s) ++ ")")
    set w := warnOnce s "var.notype"
      ("No type set for variable '" ++ name ++ "' (declared line " ++
        toString (pc s) ++ ")") with hwdef
    refine ⟨{ w with localVariables :=
                (updateAssoc w.localVariables name ⟨initial, none, true⟩) },
      ?_, ?_⟩
    · simp only [isl_declare, if_true]
      rw [hw, he]
      simp [hnd]
    · exact lookupAssoc_updateAssoc_self w.localVariables name
        (⟨initial, none, true⟩ : VarEntry)
  · refine ⟨{ s with localVariables :=
                (updateAssoc s.localVariables name ⟨initial, ty, true⟩) },
      ?_, ?_⟩
    · simp only [isl_declare, if_true]
      rw [if_neg hty, he]
      simp [hnd]
    · exact lookupAssoc_updateAssoc_self s.localVariables name
        (⟨initial, ty, true⟩ : VarEntry)

/-- **C2** — For every variable name: declaring it a second time while it
exists and is marked declared in the current pass always fails with a
Reference-kind error (leaving the variable table unchanged); a soft reset
(`#reset`) retains the entry but marks it not-declared; and declaring the
same name again after the soft reset succeeds, installing the new initial
value and type. -/
theorem C2_redeclaration (st : InterpState) (name : String) (initial : Raw)
    (ty : Option String) (entry : VarEntry)
    (h : lookupAssoc st.localVariables name = some entry)
    (hd : entry.declared = true) :
    (∃ st' msg,
      isl_declare st "var" name initial ty [] = .error (st', ⟨msg, .reference⟩) ∧
      st'.localVariables = st.localVariables) ∧
    lookupAssoc (reset st).localVariables name =
      some { entry with declared := false } ∧
    (∃ st'',
      isl_declare (reset st) "var" name initial ty [] = .ok st'' ∧
      lookupAssoc st''.localVariables name = some ⟨initial, ty, true⟩) := by
  have hmsg : ∀ s : InterpState,
      (if ty = none then
        warnOnce s "var.notype"
          ("No type set for variable '" ++ name ++ "' (declared line " ++
            toString (pc s) ++ ")")
       else s).localVariables = s.localVariables := by
    intro s
    split
    · exact warnOnce_localVariables s _ _
    · rfl
  refine ⟨?_, reset_retains_variable st name entry h,
    isl_declare_var_not_declared (reset st) name initial ty
      { entry with declared := false }
      (reset_retains_variable st name entry h) rfl⟩
  refine ⟨_, "Cannot redeclare local variable '" ++ name ++ "'", ?_, hmsg st⟩
  simp only [isl_declare, if_true]
  rw [show lookupAssoc (if ty = none then
      warnOnce st "var.notype"
        ("No type set for variable '" ++ name ++ "' (declared line " ++
          toString (pc st) ++ ")")
     else st).localVariables name = some entry from (hmsg st).symm ▸ h]
  simp [hd]


def c2State : InterpState :=
  { initialState with localVariables := [("x", ⟨.num 1, some "number", true⟩)] }

/-- Witness for C2 at a concrete state: `x` (declared, tag `number`)
cannot be redeclared, and after a soft reset redeclaration succeeds. -/
theorem C2_redeclaration_witness :
    (∃ st' msg,
      isl_declare c2State "var" "x" (.num 0) (some "number") [] =
        .error (st', ⟨msg, .reference⟩) ∧
      st'.localVariables = c2State.localVariables) ∧
    lookupAssoc (reset c2State).localVariables "x" =
      some ⟨.num 1, some "number", false⟩ ∧
    (∃ st'',
      isl_declare (reset c2State) "var" "x" (.num 0) (some "number") [] =
        .ok st'' ∧
      lookupAssoc st''.localVariables "x" = some ⟨.num 0, some "number", true⟩) :=
  C2_redeclaration c2State "x" (.num 0) (some "number")
    ⟨.num 1, some "number", true⟩ rfl rfl

/-- **C4** (amended) — For every declared function `f` with parameters
`(x : number, y : string)` and every `execute f ...` call: supplying an
argument count other than 2 raises a Syntax-kind error, and supplying a
first argument whose tag is not `number` raises a Type-kind error; in both
failure cases the error is raised by the parameter-validation step, which
runs *after* the call frame is pushed, so the failed call leaves the new
frame on the call stack while the parameter frame (and everything else) is
unchanged. -/
theorem C4_execute_validation (st : InterpState) (f : String)
    (entry : FuncEntry) (args : List Component)
    (hne : f ≠ "")
    (hf : lookupAssoc st.functions f = some entry)
    (hp : entry.params = [⟨"x", some "number"⟩, ⟨"y", some "string"⟩]) :
    (args.length ≠ 2 →
      ∃ msg, isl_execute st f args =
        .error ({ st with
                  callstack := st.callstack ++ [⟨st.counter, f, args⟩] },
          ⟨msg, .synErr⟩)) ∧
    (∀ a1 a2, args = [a1, a2] → a1.type ≠ some "number" →
      ∃ msg, isl_execute st f args =
        .error ({ st with
                  callstack := st.callstack ++ [⟨st.counter, f, args⟩] },
          ⟨msg, .typeErr⟩)) := by
  constructor
  · intro hlen
    refine ⟨"Function '" ++ f ++ "' requires " ++ toString (2 : ℕ) ++
      " parameter(s), but received " ++ toString args.length, ?_⟩
    simp only [isl_execute, doesFuncExist, hf, Option.isSome_some,
      not_true_eq_false, if_false, Bool.not_true]
    simp only [toParameterObjects, if_neg hne, getFunction, hf, hp]
    rw [if_pos (by simpa [hp] using hlen)]
    rfl
  · intro a1 a2 hargs hty
    subst hargs
    refine ⟨"Parameter 'x' has type '" ++ toString (some "number" : Option String) ++
      "', but was given an argument of type '" ++ toString a1.type ++ "'", ?_⟩
    simp only [isl_execute, doesFuncExist, hf, Option.isSome_some,
      not_true_eq_false, if_false, Bool.not_true]
    simp only [toParameterObjects, if_neg hne, getFunction, hf, hp]
    rw [if_neg (by simp)]
    simp only [toParameterObjects.build]
    rw [if_pos (Ne.symm hty)]
    rfl


def c4State : InterpState :=
  { initialState with functions :=
      [("f", ⟨0, none, true, true,
        [⟨"x", some "number"⟩, ⟨"y", some "string"⟩]⟩)] }

/-- Witness for C4 at a concrete state. -/
theorem C4_execute_validation_witness :
    (∃ msg, isl_execute c4State "f" [⟨.num 3, some "number"⟩] =
      .error ({ c4State with
                callstack := [⟨0, "f", [⟨.num 3, some "number"⟩]⟩] },
        ⟨msg, .synErr⟩)) ∧
    (∃ msg, isl_execute c4State "f"
        [⟨.str "a", some "string"⟩, ⟨.str "b", some "string"⟩] =
      .error ({ c4State with
                callstack := [⟨0, "f",
                  [⟨.str "a", some "string"⟩, ⟨.str "b", some "string"⟩]⟩] },
        ⟨msg, .typeErr⟩)) := by
  constructor
  · exact (C4_execute_validation c4State "f" _ _ (by decide) rfl rfl).1
      (by decide)
  · exact (C4_execute_validation c4State "f" _ _ (by decide) rfl rfl).2
      _ _ rfl (by decide)

/-- Counterexample to C4 as stated: the claim says the error is raised
*before* the call frame is pushed, leaving the call stack unchanged; in
fact the failed `execute` of `f` (expecting 2 parameters) with one argument
reports its Syntax-kind error with the new frame already on the call stack,
although the stack was empty beforehand. -/
theorem C4_counterexample :
    isl_execute c4State "f" [⟨.num 3, some "number"⟩] =
      .error ({ c4State with
                callstack := [⟨0, "f", [⟨.num 3, some "number"⟩]⟩] },
        ⟨"Function 'f' requires 2 parameter(s), but received 1", .synErr⟩) ∧
    c4State.callstack = [] := ⟨rfl, rfl⟩



theorem lookupAssoc_updateAssoc_ne {α : Type} (l : List (String × α))
    (k k' : String) (v : α) (h : k ≠ k') :
    lookupAssoc (updateAssoc l k v) k' = lookupAssoc l k' := by
  induction l with
  | nil => simp [updateAssoc, lookupAssoc, h]
  | cons p rest ih =>
      by_cases hp : p.1 = k
      · simp [updateAssoc, hp, lookupAssoc, h]
      · simp [updateAssoc, hp, lookupAssoc, ih]

theorem lookupAssoc_foldl_not_mem {β γ : Type} (l : List (String × γ))
    (g : String × γ → β) (K : String) (t0 : List (String × β))
    (h : ∀ p ∈ l, p.1 ≠ K) :
    lookupAssoc (l.foldl (fun t p => updateAssoc t p.1 (g p)) t0) K =
      lookupAssoc t0 K := by
  induction l generalizing t0 with
  | nil => rfl
  | cons p rest ih =>
      simp only [List.foldl_cons]
      rw [ih _ fun q hq => h q (List.mem_cons_of_mem p hq)]
      exact lookupAssoc_updateAssoc_ne t0 p.1 K (g p) (h p (List.mem_cons_self p rest))

/-- After merging a keyword table with unique keys, looking up a key bound
in that table yields *that* table's binding (the most recent registration
overwrites any earlier binding in the accumulator). -/
theorem lookupAssoc_foldl_mem {β γ : Type} (l : List (String × γ))
    (g : String × γ → β) (K : String) (d : γ) (t0 : List (String × β))
    (hnodup : (l.map Prod.fst).Nodup)
    (hK : lookupAssoc l K = some d) :
    lookupAssoc (l.foldl (fun t p => updateAssoc t p.1 (g p)) t0) K =
      some (g (K, d)) := by
  induction l generalizing t0 with
  | nil => simp [lookupAssoc] at hK
  | cons p rest ih =>
      simp only [List.map_cons, List.nodup_cons] at hnodup
      by_cases hp : p.1 = K
      · have hd : p.2 = d := by
          simp [lookupAssoc, hp] at hK
          exact hK
        have hrest : ∀ q ∈ rest, q.1 ≠ K := by
          intro q hq hqk
          apply hnodup.1
          rw [hp, ← hqk]
          exact List.mem_map_of_mem Prod.fst hq
        simp only [List.foldl_cons]
        rw [lookupAssoc_foldl_not_mem rest g K _ hrest]
        have : (K, d) = p := by
          cases p with
          | mk a b =>
              simp only at hp hd
              rw [hp, hd]
        rw [← this]
        exact lookupAssoc_updateAssoc_self t0 K (g (K, d))
      · have hK' : lookupAssoc rest K = some d := by
          simpa [lookupAssoc, hp] using hK
        simp only [List.foldl_cons]
        exact ih _ hnodup.2 hK'


/-- Successful extension registration leaves the dispatch-relevant state
untouched except for the extension list, keyword table, global variables
and literal types. -/
theorem extend_ok_spec (st : InterpState) (e : ExtensionModel)
    (st' : InterpState) (h : extend st e = .ok st') :
    st'.ignored = st.ignored ∧ st'.currentLabels = st.currentLabels ∧
    st'.skipping = st.skipping ∧
    st'.customKeywords = e.keywords.foldl
      (fun t (p : String × CustomKeywordDef) =>
        updateAssoc t p.1 ⟨p.2.callbackId, p.2.descriptors, e.id⟩)
      st.customKeywords := by
  by_cases hid : e.id = ""
  · unfold extend at h
    rw [if_pos hid] at h
    cases h
  · unfold extend at h
    rw [if_neg hid] at h
    have h2 := Except.ok.inj h
    subst h2
    exact ⟨rfl, rfl, rfl, rfl⟩

/-- **C5** (amended, extension-vs-extension half) — For a keyword `K` that
is not a built-in keyword (and not deprecated or a built-in label), after
registering extension `e1` and then extension `e2`, both defining `K`,
dispatching the statement `K` invokes exactly one callback: the one from
the most recent registration (`e2`'s); the earlier extension's callback is
never invoked. -/
theorem C5_latest_extension_wins (st : InterpState) (e1 e2 : ExtensionModel)
    (K : String) (cid2 : ℕ) (τ : Option String) (st1 st2 : InterpState)
    (hx1 : extend st e1 = .ok st1) (hx2 : extend st1 e2 = .ok st2)
    (hnodup : (e2.keywords.map Prod.fst).Nodup)
    (hk2 : lookupAssoc e2.keywords K = some ⟨cid2, none⟩)
    (hbuiltin : builtinDescriptors K = none)
    (hdep : lookupAssoc deprecatedTable K = none)
    (hlabel : isLabelRaw (.str K) = false)
    (hign : st.ignored = []) (hcl : st.currentLabels = [])
    (hskip : st.skipping = false) :
    executeStatement st2 [⟨.str K, τ⟩] =
      .ok { st2 with invoked := st2.invoked ++ [.custom e2.id cid2],
                     currentLabels := [] } := by
  obtain ⟨hi1, hc1, hs1, _⟩ := extend_ok_spec st e1 st1 hx1
  obtain ⟨hi2, hc2, hs2, hk⟩ := extend_ok_spec st1 e2 st2 hx2
  have hign2 : st2.ignored = [] := by rw [hi2, hi1, hign]
  have hcl2 : st2.currentLabels = [] := by rw [hc2, hc1, hcl]
  have hskip2 : st2.skipping = false := by rw [hs2, hs1, hskip]
  have hlook : lookupAssoc st2.customKeywords K =
      some ⟨cid2, none, e2.id⟩ := by
    rw [hk]
    exact lookupAssoc_foldl_mem e2.keywords
      (fun p => ⟨p.2.callbackId, p.2.descriptors, e2.id⟩) K
      ⟨cid2, none⟩ st1.customKeywords hnodup hk2
  simp only [executeStatement, executeStatementGo, hign2, List.any_nil, Bool.false_eq_true,
    if_false, hlabel, isOwnLabelRaw, List.isEmpty_nil, Bool.not_true,
    Bool.and_false, Bool.or_self, hcl2, checkLabels, hskip2,
    rawKeyString, handleDeprecatedFeature, hdep, hbuiltin, hlook]


def c5Ext1 : ExtensionModel := { id := "ext1", keywords := [("zap", ⟨1, none⟩)] }

def c5Ext2 : ExtensionModel := { id := "ext2", keywords := [("zap", ⟨2, none⟩)] }

def c5State1 : InterpState :=
  { initialState with extensions := [c5Ext1],
                      customKeywords := [("zap", ⟨1, none, "ext1"⟩)] }

def c5State2 : InterpState :=
  { c5State1 with extensions := [c5Ext1, c5Ext2],
                  customKeywords := [("zap", ⟨2, none, "ext2"⟩)] }

/-- Witness for C5: with `zap` defined by `ext1` (callback 1) and then by
`ext2` (callback 2), dispatching `zap` invokes exactly `ext2`'s callback. -/
theorem C5_latest_extension_wins_witness :
    executeStatement c5State2 [⟨.str "zap", some "keyword"⟩] =
      .ok { c5State2 with invoked := [.custom "ext2" 2],
                          currentLabels := [] } :=
  C5_latest_extension_wins initialState c5Ext1 c5Ext2 "zap" 2 (some "keyword")
    c5State1 c5State2 rfl rfl (by decide) rfl rfl rfl rfl rfl rfl rfl

def c5ShadowExt : ExtensionModel :=
  { id := "shadow", keywords := [("log", ⟨7, none⟩)] }

def c5ShadowState : InterpState :=
  { initialState with extensions := [c5ShadowExt],
                      customKeywords := [("log", ⟨7, none, "shadow"⟩)] }

/-- Counterexample to C5 as stated: the claim says an extension definition
shadows the built-in of the same name; in fact `#executeStatement` consults
the built-in keyword table first, so after registering an extension that
redefines `log`, dispatching `log "hi"` still invokes the *built-in*
callback and the extension's callback (id 7) is never invoked. -/
theorem C5_counterexample :
    executeStatement c5ShadowState
        [⟨.str "log", some "keyword"⟩, ⟨.str "hi", some "string"⟩] =
      .ok { c5ShadowState with outputLog := [[.str "hi"]],
                               invoked := [.builtin "log"],
                               currentLabels := [] } ∧
    CallbackRef.custom "shadow" 7 ∉ [CallbackRef.builtin "log"] :=
  ⟨rfl, by decide⟩



/-- **C7** (amended) — Tokenizing the line
`rectangle 10 10 "a b" [1|2|3]` yields exactly *five* components: the
leading keyword token (`rectangle`, an identifier) plus three scalar
argument tokens and one group-typed component of three number elements;
the quoted string is a single string-typed component whose text contains a
literal space. -/
theorem C7_tokenize_rectangle :
    tokenizeLine initialState "rectangle 10 10 \"a b\" [1|2|3]" =
      .ok [⟨.str "rectangle", some "identifier"⟩,
           ⟨.num 10, some "number"⟩, ⟨.num 10, some "number"⟩,
           ⟨.str "a b", some "string"⟩,
           ⟨.group [(.num 1, some "number"), (.num 2, some "number"),
                    (.num 3, some "number")], some "group"⟩] ∧
    strContains "a b" " " = true := ⟨rfl, by decide⟩

/-- Counterexample to C7 as stated: the claim says tokenization yields
exactly four components; it yields five (the keyword itself is a
component of the tokenized statement). -/
theorem C7_counterexample :
    (tokenizeLine initialState "rectangle 10 10 \"a b\" [1|2|3]").map
        List.length = .ok 5 ∧ (5 : ℕ) ≠ 4 := ⟨rfl, by decide⟩


/-- A waiting `#executeISL` step: an armed key listener suspends without
consuming anything; a positive pause countdown suspends and consumes one
unit per *invocation* of the step (the `#isWaiting` getter decrements
`#waits` each time it is read). -/
theorem executeISL_waiting (st : InterpState) :
    (st.listeningForKeyPress = true → executeISL st = .ok st) ∧
    (st.listeningForKeyPress = false → 0 < st.waits →
      executeISL st = .ok { st with waits := st.waits - 1 }) := by
  constructor
  · intro h
    simp [executeISL, isWaitingStep, h]
  · intro h hw
    simp [executeISL, isWaitingStep, h, hw]

/-- **C8** (amended) — While the engine is waiting no statement is
executed; but the pause countdown is consumed once per `#executeISL`
invocation, not once per scheduler tick: a tick that runs `k` instruction
slots consumes `min(k, waits)` units.  Concretely: with an armed key
listener a whole tick leaves the state unchanged; with a countdown of at
least `k = instructionsAtOnce`, one tick consumes exactly `k` units (and
executes nothing — every field other than `waits` is untouched), so
`pause N` suspends execution for `⌈N / ipt⌉` ticks rather than `N` ticks.  -/
theorem C8_wait_consumption (st : InterpState) (k : ℕ) :
    (st.listeningForKeyPress = true → tickLoop k st = .ok st) ∧
    (st.listeningForKeyPress = false → st.stopped = false →
      (k : ℚ) ≤ st.waits →
      tickLoop k st = .ok { st with waits := st.waits - k }) ∧
    (st.listeningForKeyPress = false → st.stopped = false →
      st.instant = false → ((st.instructionsAtOnce : ℚ)) ≤ st.waits →
      ∀ fuel, startExecutionTick fuel st =
        { st with waits := st.waits - st.instructionsAtOnce }) := by
  have main : ∀ (k : ℕ) (st : InterpState),
      (st.listeningForKeyPress = true → tickLoop k st = .ok st) ∧
      (st.listeningForKeyPress = false → st.stopped = false →
        (k : ℚ) ≤ st.waits →
        tickLoop k st = .ok { st with waits := st.waits - k }) := by
    intro k
    induction k with
    | zero =>
        intro st
        constructor
        · intro _; rfl
        · intro _ _ _
          simp [tickLoop]
    | succ n ih =>
        intro st
        constructor
        · intro h
          by_cases hs : st.stopped = true
          · simp only [tickLoop, hs, if_true]
            exact (ih st).1 h
          · simp only [tickLoop, Bool.not_eq_true] at hs
            simp only [tickLoop, hs, Bool.false_eq_true, if_false,
              (executeISL_waiting st).1 h]
            exact (ih st).1 h
        · intro h hs hw
          have hw1 : 0 < st.waits := by
            have h1 : (1 : ℚ) ≤ ((n + 1 : ℕ) : ℚ) := by
              exact_mod_cast Nat.one_le_iff_ne_zero.mpr (Nat.succ_ne_zero n)
            linarith
          have ihr := (ih { st with waits := st.waits - 1 }).2 h hs
            (by push_cast at hw ⊢; linarith)
          have harr : st.waits - 1 - (n : ℚ) = st.waits - ((n + 1 : ℕ) : ℚ) := by
            push_cast; ring
          have hfinal :
              (Except.ok { st with waits := st.waits - 1 - (n : ℚ) } : ExecResult) =
                Except.ok { st with waits := st.waits - ((n + 1 : ℕ) : ℚ) } := by
            rw [harr]
          simp only [tickLoop]
          rw [if_neg (by simp [hs]), (executeISL_waiting st).2 h hw1]
          exact ihr.trans hfinal
  refine ⟨(main k st).1, (main k st).2, ?_⟩
  intro h hs hinst hw fuel
  unfold startExecutionTick
  rw [if_neg (by simp [hinst])]
  rw [(main st.instructionsAtOnce st).2 h hs hw]

def c8State : InterpState :=
  { initialState with waits := 2, instructionsAtOnce := 2,
                      isl := ["log \"x\""] }

/-- Counterexample to C8 as stated: the claim says each scheduler tick
consumes exactly one unit of the pause countdown regardless of the
configured instructions-per-tick; with `instructionsAtOnce = 2` and a
countdown of 2, a *single* tick consumes both units (the countdown is
decremented once per instruction slot, by the `#isWaiting` getter), so a
`pause 2` does not suspend for 2 ticks here. -/
theorem C8_counterexample :
    c8State.waits = 2 ∧ c8State.instructionsAtOnce = 2 ∧
    (startExecutionTick 0 c8State).waits = 0 := by
  refine ⟨rfl, rfl, ?_⟩
  norm_num [startExecutionTick, c8State, tickLoop, executeISL, isWaitingStep,
    initialState]

/-- Witness for C8 at a concrete state: countdown 3, two instruction slots
per tick; the tick consumes two units and executes nothing. -/
theorem C8_wait_consumption_witness :
    tickLoop 2 { initialState with waits := 3, instructionsAtOnce := 2 } =
      .ok { initialState with waits := 1, instructionsAtOnce := 2 } := by
  have h := (C8_wait_consumption
    { initialState with waits := 3, instructionsAtOnce := 2 } 2).2.1
    rfl rfl (by norm_num)
  rw [h]
  norm_num



/-- **C10** (amended) — The public single-line entry point `executeLine`
never propagates an exception: on normal completion it returns the stepped
state, and when any language-level or internal error is raised during
meta-tag parsing, tokenization, validation or keyword execution, the error
is caught by `#handleError`, execution is stopped, and — whenever error
reporting is enabled (the default) — the error is routed to the pluggable
error callback. -/
theorem C10_executeLine_catches (st : InterpState) (line : String) :
    (∀ st', executeLineInternal st line = .ok st' →
      executeLine st line = st') ∧
    (∀ st1 e, executeLineInternal st line = .error (st1, e) →
      (executeLine st line).stopped = true ∧
      (st1.reportErrors = true →
        (executeLine st line).errorReports = st1.errorReports ++ [e])) := by
  constructor
  · intro st' h
    simp [executeLine, h]
  · intro st1 e h
    have hval : executeLine st line = handleError st1 e := by
      simp [executeLine, h]
    rw [hval]
    constructor
    · by_cases hrep2 : st1.reportErrors = true <;>
        simp [handleError, stopExecution, reset, hrep2]
    · intro hrep
      simp [handleError, stopExecution, reset, hrep]

def c10State : InterpState := { initialState with reportErrors := false }

/-- Counterexample to C10 as stated: the claim says every caught error is
routed to the pluggable error callback; with the `reportErrors` option
disabled, an unknown keyword still stops execution but the error callback
is never invoked (no report is delivered). -/
theorem C10_counterexample :
    executeLineInternal c10State "frobnicate" =
      .error (c10State,
        ⟨"Keyword or label 'frobnicate' not recognised", .synErr⟩) ∧
    (executeLine c10State "frobnicate").errorReports = [] ∧
    (executeLine c10State "frobnicate").stopped = true := ⟨rfl, rfl, rfl⟩

/-- Witness for C10 at a concrete erroring line (default options):
execution stops and the Syntax-kind error is delivered to the error
callback. -/
theorem C10_executeLine_catches_witness :
    (executeLine initialState "frobnicate").stopped = true ∧
    (executeLine initialState "frobnicate").errorReports =
      [⟨"Keyword or label 'frobnicate' not recognised", .synErr⟩] := by
  have h := (C10_executeLine_catches initialState "frobnicate").2
    initialState ⟨"Keyword or label 'frobnicate' not recognised", .synErr⟩ rfl
  exact ⟨h.1, h.2 rfl⟩



/-- **C6** (amended) — For every input line whose character scan completes
and ends inside an unterminated double quote or an unterminated square
bracket: parsing the line raises a Syntax-kind error and the statement
executor is never entered — the interpreter state is returned exactly
unchanged.  (While the interpreter is skipping a function-declaration body
the quote/bracket rules are disabled, so such a line raises no error
there; see the counterexample.) -/
theorem C6_unterminated_is_syntax_error (st : InterpState) (line : String)
    (sc : ScanState) (hscan : scanLine st line = .ok sc)
    (hbad : sc.inQuotes = true ∨ sc.inBrackets = true) :
    ∃ e, parseLine st line = .error (st, e) ∧ e.kind = .synErr := by
  by_cases hq : sc.inQuotes = true
  · refine ⟨⟨"Unterminated string literal", .synErr⟩, ?_, rfl⟩
    simp [parseLine, tokenizeLine, hscan, hq]
  · have hb : sc.inBrackets = true := by
      rcases hbad with h | h
      · exact absurd h hq
      · exact h
    refine ⟨⟨"Unterminated bracket group", .synErr⟩, ?_, rfl⟩
    simp only [Bool.not_eq_true] at hq
    simp [parseLine, tokenizeLine, hscan, hq, hb]

/-- Witness for C6: the line `log "abc` (unterminated quote) under default
options is rejected with a Syntax-kind error, leaving the state
untouched. -/
theorem C6_unterminated_is_syntax_error_witness :
    ∃ e, parseLine initialState "log \"abc" = .error (initialState, e) ∧
      e.kind = .synErr :=
  C6_unterminated_is_syntax_error initialState "log \"abc" _ rfl (Or.inl rfl)

def c6SkipState : InterpState := { initialState with skipping := true }

/-- Counterexample to C6 as stated: the claim says a line containing an
unterminated quote *always* raises a Syntax-kind error and the statement
executor is never entered.  While the interpreter is skipping a
function-declaration body (`#skipping` set), quote handling is disabled:
the same line whose scan is left in-quotes under normal parsing (third
conjunct) parses without any error, and the statement executor *is*
entered (returning the state unchanged because the keyword is not
`end`). -/
theorem C6_counterexample :
    parseLine c6SkipState "set x \"a" = .ok c6SkipState ∧
    (scanLine initialState "set x \"a").map ScanState.inQuotes = .ok true :=
  ⟨rfl, rfl⟩



/-- The numeric value of one decimal digit character. -/
def digitVal (c : Char) : ℕ := c.toNat - 48

/-- The positional (place-value) reading of a digit string:
`placeValue [d₀, …, dₖ] = Σ dᵢ · 10^(k−i)` — the number the integer part
denotes. -/
def placeValue : List Char → ℕ
  | [] => 0
  | c :: cs => digitVal c * 10 ^ cs.length + placeValue cs

/-- The positional reading of a fraction-digit string:
`fracValue [f₀, …, fₖ] = Σ fᵢ / 10^(i+1)` — the number the fractional part
denotes. -/
def fracValue : List Char → ℚ
  | [] => 0
  | c :: cs => (digitVal c : ℚ) / 10 + fracValue cs / 10

/-- The number denoted by an unsigned decimal literal, by its positional
reading (specification-side definition, independent of the interpreter's
Horner-style accumulation). -/
def decimalValueBody (cs : List Char) : Option ℚ :=
  let ip := cs.takeWhile isDigitChar
  let rest := cs.dropWhile isDigitChar
  if ip = [] then none
  else
    match rest with
    | [] => some (placeValue ip)
    | '.' :: fs =>
        if fs ≠ [] ∧ fs.all isDigitChar then
          some ((placeValue ip : ℚ) + fracValue fs)
        else none
    | _ => none

/-- The number denoted by a decimal literal with optional sign. -/
def decimalValue (s : String) : Option ℚ :=
  if s.data.head? = some '-' then (decimalValueBody s.data.tail).map Neg.neg
  else decimalValueBody s.data

theorem foldl_digits_eq (cs : List Char) :
    ∀ a : ℕ, cs.foldl (fun a c => 10 * a + (c.toNat - 48)) a =
      a * 10 ^ cs.length + placeValue cs := by
  induction cs with
  | nil => intro a; simp [placeValue]
  | cons c cs ih =>
      intro a
      simp only [List.foldl_cons, ih, placeValue, List.length_cons, digitVal]
      ring

theorem natOfDigits_eq_placeValue (cs : List Char) :
    natOfDigits cs = placeValue cs := by
  simpa using foldl_digits_eq cs 0

theorem fracValue_eq (cs : List Char) :
    fracValue cs = (placeValue cs : ℚ) / 10 ^ cs.length := by
  induction cs with
  | nil => simp [fracValue, placeValue]
  | cons c cs ih =>
      simp only [fracValue, ih, placeValue, List.length_cons]
      push_cast
      field_simp
      ring

theorem parseBody_denotes (cs : List Char) (h : isNumericBody cs = true) :
    decimalValueBody cs = some (parseBody cs) := by
  simp only [isNumericBody, ne_eq, Bool.and_eq_true, Bool.or_eq_true,
    decide_eq_true_eq, List.all_eq_true] at h
  obtain ⟨hip, hrest⟩ := h
  simp only [decimalValueBody, parseBody]
  rw [if_neg (by simpa using hip)]
  rcases hrest with hnil | ⟨⟨hhead, htail⟩, hall⟩
  · have : cs.dropWhile isDigitChar = [] := by simpa using hnil
    rw [this]
    simp [natOfDigits_eq_placeValue]
  · rcases hd : cs.dropWhile isDigitChar with _ | ⟨c0, fs⟩
    · rw [hd] at hhead
      simp at hhead
    · rw [hd] at hhead htail hall
      simp only [List.head?_cons, Option.some.injEq] at hhead
      simp only [List.tail_cons] at htail hall
      subst hhead
      simp [htail, List.all_eq_true, hall, natOfDigits_eq_placeValue,
        fracValue_eq]
      exact hall


/-- A digit character is none of the tokenizer's special characters. -/
theorem digit_not_special (c : Char) (hc : isDigitChar c = true) :
    c ≠ ' ' ∧ c ≠ '"' ∧ c ≠ '\\' ∧ c ≠ '[' ∧ c ≠ ']' := by
  refine ⟨?_, ?_, ?_, ?_, ?_⟩ <;> (rintro rfl; exact absurd hc (by decide))

/-- Every character of a numeric literal (digit, sign or dot) is inert for
the scanner. -/
theorem numeric_chars_plain (s : String) (h : isNumericLiteral s = true) :
    ∀ c ∈ s.data, c ≠ ' ' ∧ c ≠ '"' ∧ c ≠ '\\' ∧ c ≠ '[' ∧ c ≠ ']' := by
  have hbody : ∀ cs : List Char, isNumericBody cs = true →
      ∀ c ∈ cs, c ≠ ' ' ∧ c ≠ '"' ∧ c ≠ '\\' ∧ c ≠ '[' ∧ c ≠ ']' := by
    intro cs hcs c hc
    simp only [isNumericBody, ne_eq, Bool.and_eq_true, Bool.or_eq_true,
      decide_eq_true_eq, List.all_eq_true] at hcs
    obtain ⟨_, hrest⟩ := hcs
    rw [← List.takeWhile_append_dropWhile (p := isDigitChar) (l := cs)] at hc
    rcases List.mem_append.mp hc with hin | hin
    · exact digit_not_special c (List.mem_takeWhile_imp hin)
    · rcases hrest with hnil | ⟨⟨hhead, _⟩, hall⟩
      · rw [show cs.dropWhile isDigitChar = [] from by simpa using hnil] at hin
        simp at hin
      · rcases hd : cs.dropWhile isDigitChar with _ | ⟨c0, fs⟩
        · rw [hd] at hin; simp at hin
        · rw [hd] at hin hhead hall
          simp only [List.head?_cons, Option.some.injEq] at hhead
          subst hhead
          simp only [List.tail_cons] at hall
          rcases List.mem_cons.mp hin with rfl | hin2
          · exact ⟨by decide, by decide, by decide, by decide, by decide⟩
          · exact digit_not_special c (hall c hin2)
  intro c hc
  unfold isNumericLiteral at h
  by_cases hc0 : s.data.head? = some '-'
  · rw [if_pos hc0] at h
    rcases hdata : s.data with _ | ⟨d, ds⟩
    · rw [hdata] at hc; simp at hc
    · rw [hdata] at hc hc0 h
      simp only [List.head?_cons, Option.some.injEq] at hc0
      subst hc0
      simp only [List.tail_cons] at h
      rcases List.mem_cons.mp hc with rfl | hin
      · exact ⟨by decide, by decide, by decide, by decide, by decide⟩
      · exact hbody ds h c hin
  · rw [if_neg hc0] at h
    exact hbody s.data h c hc

/-- Characters that are not scanner-special simply accumulate into the
current component buffer, whatever the region flags and previous
character. -/
theorem scanLoop_accumulates (st : InterpState) (cs : List Char)
    (h : ∀ c ∈ cs, c ≠ ' ' ∧ c ≠ '"' ∧ c ≠ '\\' ∧ c ≠ '[' ∧ c ≠ ']') :
    ∀ (prev : Option Char) (sc : ScanState),
      scanLoop st prev cs sc = .ok { sc with current := ⟨sc.current.data ++ cs⟩ } := by
  induction cs with
  | nil =>
      intro prev sc
      simp only [scanLoop, List.append_nil]
  | cons c rest ih =>
      intro prev sc
      obtain ⟨h1, h2, h3, h4, h5⟩ := h c (List.mem_cons_self _ _)
      have ihr := ih (fun d hd => h d (List.mem_cons_of_mem c hd)) (some c)
        { sc with current := sc.current.push c }
      simp only [scanLoop, h1, h2, h3, h4, h5, decide_False,
        Bool.false_and, Bool.and_false, Bool.false_eq_true, if_false, ihr]
      rw [show (sc.current.push c).data ++ rest = sc.current.data ++ c :: rest from by
        simp [String.push]]


/-- **C9** — For every token string matching the numeric-literal pattern
`-?\d+(\.\d+)?`: literal coercion produces a component whose type tag is
`number` and whose numeric value equals the number the literal denotes (in
its positional decimal reading — the Horner-style `parseFloat` accumulation
round-trips to the denoted value); and the coercion happens at
tokenization: tokenizing the literal as a line already yields the coerced
`number` component, for every interpreter state. -/
theorem C9_numeric_literal_coercion (s : String)
    (h : isNumericLiteral s = true) :
    restoreOriginalType ⟨.str s, some "identifier"⟩ =
      ⟨.num (parseNumber s), some "number"⟩ ∧
    decimalValue s = some (parseNumber s) ∧
    ∀ st : InterpState, tokenizeLine st s =
      .ok [⟨.num (parseNumber s), some "number"⟩] := by
  have ht : s ≠ "true" := by rintro rfl; exact absurd h (by decide)
  have hf : s ≠ "false" := by rintro rfl; exact absurd h (by decide)
  have hcoerce : restoreOriginalType ⟨.str s, some "identifier"⟩ =
      ⟨.num (parseNumber s), some "number"⟩ := by
    simp [restoreOriginalType, ht, hf, h]
  have hne : s.data ≠ [] := by
    intro hnil
    unfold isNumericLiteral at h
    rw [hnil] at h
    simp [isNumericBody] at h
  refine ⟨hcoerce, ?_, ?_⟩
  · by_cases hc : s.data.head? = some '-'
    · unfold isNumericLiteral at h
      rw [if_pos hc] at h
      simp only [decimalValue, parseNumber, if_pos hc,
        parseBody_denotes _ h]
      rfl
    · unfold isNumericLiteral at h
      rw [if_neg hc] at h
      simp only [decimalValue, parseNumber, if_neg hc]
      exact parseBody_denotes _ h
  · intro st
    have hplain := numeric_chars_plain s h
    have hlen : 0 < s.length := by
      rcases hdata : s.data with _ | _
      · exact absurd hdata hne
      · simp [String.length, hdata]
    unfold tokenizeLine scanLine
    rw [scanLoop_accumulates st s.data hplain none {}]
    have hmk : (⟨("" : String).data ++ s.data⟩ : String) = s := by
      show (⟨s.data⟩ : String) = s
      rfl
    simp only [hmk]
    simp only [addComponentStr, isComponent]
    rw [if_neg (by simp [hlen])]
    rw [hcoerce]
    have hz : ¬ s.length = 0 := Nat.pos_iff_ne_zero.mp hlen
    simp [hz]


/-- Witness for C9 at the literal `-12.5`: coercion yields a `number`
component equal to the positional denotation, already at tokenization. -/
theorem C9_numeric_literal_coercion_witness :
    isNumericLiteral "-12.5" = true ∧
    restoreOriginalType ⟨.str "-12.5", some "identifier"⟩ =
      ⟨.num (parseNumber "-12.5"), some "number"⟩ ∧
    decimalValue "-12.5" = some (parseNumber "-12.5") ∧
    tokenizeLine initialState "-12.5" =
      .ok [⟨.num (parseNumber "-12.5"), some "number"⟩] := by
  have h := C9_numeric_literal_coercion "-12.5" (by decide)
  exact ⟨by decide, h.1, h.2.1, h.2.2 initialState⟩


end ISL
namespace ISL

theorem islGet_at (pre : List String) (l : String) (post : List String) :
    islGet (pre ++ l :: post) (pre.length : ℤ) = some l := by
  unfold islGet
  rw [if_neg (by exact not_lt.mpr (Int.natCast_nonneg _))]
  simp [List.getElem?_append_right (Nat.le_refl pre.length)]

/-- One free (not waiting, not stopped) `#executeISL` step on an in-range
line: execute the line, advance the cursor, and stay (no reset) while the
next 1-based position is still within the program. -/
theorem executeISL_step (st : InterpState) (line : String)
    (st' : InterpState)
    (hlisten : st.listeningForKeyPress = false) (hwaits : st.waits = 0)
    (hstop : st.stopped = false)
    (hget : islGet st.isl st.counter = some line)
    (hrun : executeLineInternal st line = .ok st')
    (hlen : ¬ (st'.counter + 1 + 1 > (st'.isl.length : ℤ))) :
    executeISL st = .ok { st' with counter := st'.counter + 1 } := by
  have hw : isWaitingStep st = (false, st) := by
    simp [isWaitingStep, hlisten, hwaits]
  unfold executeISL
  rw [hw]
  simp only [not_false_eq_true, hstop, Bool.false_eq_true, true_and, if_true,
    hget, hrun]
  rw [if_neg (by simpa [pc] using hlen)]

end ISL
namespace ISL

/-- C3: for every program position N (the 1-based line `pre.length + 1` of a
program `pre ++ line :: post`), executing `jump ~2` at line N makes the next
executed line N+2 (the relative target lands `pc + 2`), and executing
`jump 5` makes the next executed line 5 regardless of the current position,
whenever the target stays inside the program (so the end-of-program reset
does not intervene). -/
theorem C3_jump_targets (pre post pre2 post2 : List String)
    (h1 : 2 ≤ post.length)
    (h2 : 5 ≤ pre2.length + post2.length + 1) :
    (∃ st', executeISL (progState pre "jump ~2" post) = .ok st' ∧
       pc st' = pc (progState pre "jump ~2" post) + 2) ∧
    (∃ st', executeISL (progState pre2 "jump 5" post2) = .ok st' ∧
       pc st' = 5) := by
  constructor
  · refine ⟨_, executeISL_step (progState pre "jump ~2" post) "jump ~2"
      { progState pre "jump ~2" post with
        counter := (pre.length : ℤ) + 1 + 2 - 1 - 1,
        invoked := [CallbackRef.builtin "jump"],
        currentLabels := [] }
      rfl rfl rfl (islGet_at pre "jump ~2" post) rfl ?_, ?_⟩
    · simp only [progState, List.length_append, List.length_cons]
      push_cast
      omega
    · simp only [pc, progState]
      ring
  · refine ⟨_, executeISL_step (progState pre2 "jump 5" post2) "jump 5"
      { progState pre2 "jump 5" post2 with
        counter := (5 : ℤ) - 1 - 1,
        invoked := [CallbackRef.builtin "jump"],
        currentLabels := [] }
      rfl rfl rfl (islGet_at pre2 "jump 5" post2) rfl ?_, ?_⟩
    · simp only [progState, List.length_append, List.length_cons]
      push_cast
      omega
    · simp only [pc]
      ring

/-- C3 witness: the concrete programs `["", "jump ~2", "", ""]` (jump at
line 2, next executed line 4) and `["", "", "jump 5", "", ""]` (next
executed line 5). -/
theorem C3_jump_targets_witness :
    (2 ≤ (["", ""] : List String).length ∧
      5 ≤ (["", ""] : List String).length + (["", ""] : List String).length + 1 ∧
      (∃ st', executeISL (progState [""] "jump ~2" ["", ""]) = .ok st' ∧
         pc st' = pc (progState [""] "jump ~2" ["", ""]) + 2) ∧
      (∃ st', executeISL (progState ["", ""] "jump 5" ["", ""]) = .ok st' ∧
         pc st' = 5)) := by
  have h := C3_jump_targets [""] ["", ""] ["", ""] ["", ""]
    (by decide) (by decide)
  exact ⟨by decide, by decide, h.1, h.2⟩

end ISL
